import Mathlib

open Classical

/-! Shallow embedding of the genetic-algorithm core of the camera-placement
service (`backend/algoritmo_genetico.py` and `backend/ga_cobertura.py`).

Python floats are modelled as real numbers.  Every call to the global random
generator (`random.uniform`, `random.gauss`, `random.random`, `random.choice`,
`random.sample`) is modelled by an explicit oracle argument supplying the drawn
values, so each stochastic function becomes a deterministic function of its
inputs and of the oracle; theorems quantify over all oracles.
`random.uniform lo hi` is modelled as `lo + (hi - lo) * u` (CPython's own
definition) with `u` the unit draw taken from the oracle; `random.gauss 0 s`
is modelled as `s * g` with `g` the unit-normal draw; `random.choice` and the
index draws of `random.sample` are modelled as oracle-supplied indices reduced
modulo the list length, which ranges over exactly the support of the draw. -/

/-- A geographic point `(lat, lon)` in decimal degrees (`GeoPoint`). -/
abbrev Punto := ℝ × ℝ

/-- `_clamp(v, lo, hi) = max(lo, min(hi, v))`, defined identically in both
backend modules. -/
noncomputable def _clamp (v lo hi : ℝ) : ℝ := max lo (min hi v)

/-- `math.radians`. -/
noncomputable def radians (x : ℝ) : ℝ := x * Real.pi / 180

/-- `haversine_m`, defined identically in both backend modules: great-circle
distance in meters on a sphere of radius 6371000 m.  `math.asin` is defined on
`[-1, 1]`; `Real.arcsin` extends it (by clamping) outside that interval, where
the Python code would raise — no claim depends on that unreachable region. -/
noncomputable def haversine_m (lat1 lon1 lat2 lon2 : ℝ) : ℝ :=
  let R : ℝ := 6371000.0
  let phi1 := radians lat1
  let phi2 := radians lat2
  let dphi := radians (lat2 - lat1)
  let dlambda := radians (lon2 - lon1)
  let a := Real.sin (dphi / 2.0) ^ 2 +
    Real.cos phi1 * Real.cos phi2 * Real.sin (dlambda / 2.0) ^ 2
  let c := 2.0 * Real.arcsin (Real.sqrt a)
  R * c

/-- Python's `min` over a nonempty list of floats (`min` raises on an empty
list; the `[]` case below is unreachable behind every caller's nonemptiness
guard). -/
noncomputable def minimoLista : List ℝ → ℝ
  | [] => 0
  | x :: xs => xs.foldl min x

/-- Python's `max` over a nonempty list of floats (same remark as
`minimoLista`). -/
noncomputable def maximoLista : List ℝ → ℝ
  | [] => 0
  | x :: xs => xs.foldl max x

/-- `_bbox`, defined identically in both backend modules.  The inputs are
already plain `(lat, lon)` pairs: the `_get_lat_lon` adapter of the source
normalises ORM rows to such pairs at the boundary, so the embedding works with
the canonical pair type throughout. -/
noncomputable def _bbox (camaras : List Punto) : ℝ × ℝ × ℝ × ℝ :=
  (minimoLista (camaras.map Prod.fst), maximoLista (camaras.map Prod.fst),
   minimoLista (camaras.map Prod.snd), maximoLista (camaras.map Prod.snd))

/-- `_centroide` from `algoritmo_genetico.py`. -/
noncomputable def _centroide (camaras : List Punto) : Punto :=
  ((camaras.map Prod.fst).sum / camaras.length,
   (camaras.map Prod.snd).sum / camaras.length)

/-- `_dist_min_a_camaras` from `algoritmo_genetico.py`. -/
noncomputable def _dist_min_a_camaras (lat lon : ℝ) (camaras : List Punto) : ℝ :=
  minimoLista (camaras.map (fun c => haversine_m lat lon c.1 c.2))

/-- The boolean comparison used to model Python's `sorted` on floats. -/
noncomputable def leReal (a b : ℝ) : Bool := decide (a ≤ b)

/-- `_dist_prom_k_vecinas` from `algoritmo_genetico.py`: average distance to
the `k` nearest cameras, with `k` clamped to `[1, len(dists)]`.  `k` is an
`int` in Python, so it is `ℤ` here. -/
noncomputable def _dist_prom_k_vecinas (lat lon : ℝ) (camaras : List Punto) (k : ℤ) : ℝ :=
  let dists := (camaras.map (fun c => haversine_m lat lon c.1 c.2)).mergeSort leReal
  let k2 : ℤ := max 1 (min k (dists.length : ℤ))
  (dists.take k2.toNat).sum / (k2 : ℝ)

/-- `fitness_punto_completo` from `algoritmo_genetico.py` (score of a single
blind-spot candidate). -/
noncomputable def fitness_punto_completo (punto : Punto) (camaras : List Punto)
    (radio_cobertura_m : ℝ := 80.0) (max_interes_m : ℝ := 350.0)
    (max_extrapolacion_m : ℝ := 900.0) (k_vecinos : ℤ := 4)
    (borde_frac_penal : ℝ := 0.10) : ℝ :=
  if camaras = [] then 0.0
  else
    let lat := punto.1
    let lon := punto.2
    let dmin := _dist_min_a_camaras lat lon camaras
    if dmin ≤ radio_cobertura_m then
      _clamp (0.05 * (dmin / max radio_cobertura_m 1e-9)) 0.0 0.05
    else
      let d_use := min dmin max_interes_m
      let hueco := _clamp (d_use / max max_interes_m 1e-9) 0.0 1.0
      let d_k := _dist_prom_k_vecinas lat lon camaras k_vecinos
      let interno := _clamp (1.0 - min (d_k / max max_interes_m 1e-9) 1.0) 0.0 1.0
      let ctro := _centroide camaras
      let d_cent := haversine_m lat lon ctro.1 ctro.2
      let penal_extrap :=
        (if max_interes_m < d_cent then
          _clamp ((d_cent - max_interes_m) / max (max_extrapolacion_m - max_interes_m) 1e-9)
            0.0 1.0
        else 0.0) * 0.5
      let bb := _bbox camaras
      let lat_span := max (bb.2.1 - bb.1) 1e-9
      let lon_span := max (bb.2.2.2 - bb.2.2.1) 1e-9
      let lat_borde := lat_span * borde_frac_penal
      let lon_borde := lon_span * borde_frac_penal
      let cerca_borde : Prop :=
        lat < bb.1 + lat_borde ∨ lat > bb.2.1 - lat_borde ∨
        lon < bb.2.2.1 + lon_borde ∨ lon > bb.2.2.2 - lon_borde
      let penal_borde := if cerca_borde then 0.15 else 0.0
      let score := (0.70 * hueco + 0.30 * interno) - 0.70 * penal_extrap - penal_borde
      _clamp score 0.0 1.0

/-- `random.uniform lo hi` modelled as `lo + (hi - lo) * u`, with `u` the unit
draw supplied by an oracle (this is CPython's own definition of `uniform`). -/
noncomputable def unifModel (lo hi u : ℝ) : ℝ := lo + (hi - lo) * u

/-- The scalar BLX-alpha blend: the inner `_blx` of `cruzar_blx_alpha` in
`algoritmo_genetico.py` and the module-level `_blx` of `ga_cobertura.py`
(textually identical): a uniform draw from `[lo - alpha*d, hi + alpha*d]`. -/
noncomputable def _blx (a b alpha u : ℝ) : ℝ :=
  let lo := min a b
  let hi := max a b
  let d := hi - lo
  unifModel (lo - alpha * d) (hi + alpha * d) u

/-- `cruzar_blx_alpha` from `algoritmo_genetico.py`. -/
noncomputable def cruzar_blx_alpha (p1 p2 : Punto) (alpha : ℝ) (u0 u1 : ℝ) : Punto :=
  (_blx p1.1 p2.1 alpha u0, _blx p1.2 p2.2 alpha u1)

/-- `mutar_gauss` from `algoritmo_genetico.py`: `r` models the single
`random.random()` draw gating the mutation and `g0`, `g1` the unit-normal
draws of the two `random.gauss(0, sigma)` calls. -/
noncomputable def mutar_gauss (ind : Punto) (min_lat max_lat min_lon max_lon : ℝ)
    (sigma_lat sigma_lon prob_mut : ℝ) (r g0 g1 : ℝ) : Punto :=
  let lat := ind.1 + (if r < prob_mut then sigma_lat * g0 else 0)
  let lon := ind.2 + (if r < prob_mut then sigma_lon * g1 else 0)
  (_clamp lat min_lat max_lat, _clamp lon min_lon max_lon)

/-- Python's `max(idxs, key=lambda i: fits[i])`: first index attaining the
maximum (ties keep the earlier element).  Python raises on an empty list; the
`[]` case is unreachable behind every caller's nonemptiness guard. -/
noncomputable def mejorIndice (fits : List ℝ) : List ℕ → ℕ
  | [] => 0
  | i :: rest => rest.foldl (fun b j => if fits.getD b 0 < fits.getD j 0 then j else b) i

/-- `sorted(range(len(fits)), key=lambda i: fits[i], reverse=True)`: a stable
descending sort of the population indices by fitness (used for the elitism
step of both GAs, which is textually identical in the two modules). -/
noncomputable def ordenDesc (fits : List ℝ) : List ℕ :=
  (List.range fits.length).mergeSort (fun i j => leReal (fits.getD j 0) (fits.getD i 0))

/-- `elites = [poblacion[i] for i in orden[:max(1, elitismo)]]`, shared
textually by both GAs (over single-point and multi-point individuals). -/
noncomputable def elitesDe {α : Type} (dflt : α) (poblacion : List α) (fits : List ℝ)
    (elitismo : ℕ) : List α :=
  ((ordenDesc fits).take (max 1 elitismo)).map (fun i => poblacion.getD i dflt)

/-- `seleccion_torneo` from `algoritmo_genetico.py`.  `samp t pos` is the
oracle for the index draws of `random.sample` in round `t`, reduced modulo the
population size (exactly the support of the draw). -/
noncomputable def seleccion_torneo (poblacion : List Punto) (fitnesses : List ℝ)
    (k_torneo : ℕ) (n : ℕ) (samp : ℕ → ℕ → ℕ) : List Punto :=
  (List.range n).map (fun t =>
    let contendientes := (List.range (min k_torneo poblacion.length)).map
      (fun pos => samp t pos % poblacion.length)
    poblacion.getD (mejorIndice fitnesses contendientes) (0, 0))

/-- One step of the greedy separated pass of `seleccionar_espaciados` (the
first `for` body; the `break` at the cap is modelled by the leading length
test, which leaves the accumulator unchanged for the rest of the fold once
the cap is reached). -/
noncomputable def pasoEspaciado (min_sep_m : ℝ) (max_puntos : ℕ)
    (sel : List (ℝ × ℝ × ℝ)) (c : ℝ × ℝ × ℝ) : List (ℝ × ℝ × ℝ) :=
  if max_puntos ≤ sel.length then sel
  else if ∃ s ∈ sel, haversine_m c.1 c.2.1 s.1 s.2.1 < min_sep_m then sel
  else sel ++ [c]

/-- One step of the backfill pass of `seleccionar_espaciados` (the second
`for` body, with the same treatment of `break`). -/
noncomputable def pasoRelleno (max_puntos : ℕ)
    (sel : List (ℝ × ℝ × ℝ)) (c : ℝ × ℝ × ℝ) : List (ℝ × ℝ × ℝ) :=
  if max_puntos ≤ sel.length then sel
  else if c ∈ sel then sel
  else sel ++ [c]

/-- `seleccionar_espaciados` from `algoritmo_genetico.py`. -/
noncomputable def seleccionar_espaciados (candidatos : List (ℝ × ℝ × ℝ))
    (min_sep_m : ℝ) (max_puntos : ℕ) : List (ℝ × ℝ × ℝ) :=
  let sel := candidatos.foldl (pasoEspaciado min_sep_m max_puntos) []
  if sel.length < max_puntos then candidatos.foldl (pasoRelleno max_puntos) sel
  else sel

/-- Oracle for the random draws of `algoritmo_genetico_puntos_ciegos`:
`initU i` are the unit draws of the initial population, `samp g` the
tournament sample indices of generation `g`, `eleccion1/eleccion2 g j` the
`random.choice` parent indices for child slot `j`, `blxU g j` the crossover
unit draws, `mutR g j` the mutation gate draw and `mutG g j` the unit-normal
mutation draws. -/
structure OraculoPC where
  initU : ℕ → ℕ → ℝ
  samp : ℕ → ℕ → ℕ → ℕ
  eleccion1 : ℕ → ℕ → ℕ
  eleccion2 : ℕ → ℕ → ℕ
  blxU : ℕ → ℕ → ℕ → ℝ
  mutR : ℕ → ℕ → ℝ
  mutG : ℕ → ℕ → ℕ → ℝ

/-- One generation of the blind-spot GA (the body of the `for _ in
range(generaciones)` loop of `algoritmo_genetico_puntos_ciegos`): evaluate,
copy the elites, tournament-select parents, and fill the next population with
crossed-over, mutated children (the `while len(nueva) < tam_poblacion` loop
appends exactly `tam_poblacion - len(elites)` children). -/
noncomputable def sigGeneracionPC (f : Punto → ℝ) (elitismo tam_poblacion k_torneo : ℕ)
    (alpha_blx min_lat max_lat min_lon max_lon : ℝ) (O : OraculoPC) (g : ℕ)
    (poblacion : List Punto) : List Punto :=
  let fitnesses := poblacion.map f
  let elites := elitesDe (0, 0) poblacion fitnesses elitismo
  let padres := seleccion_torneo poblacion fitnesses k_torneo tam_poblacion (O.samp g)
  elites ++ (List.range (tam_poblacion - elites.length)).map (fun j =>
    let p1 := padres.getD (O.eleccion1 g j % padres.length) (0, 0)
    let p2 := padres.getD (O.eleccion2 g j % padres.length) (0, 0)
    let hijo := cruzar_blx_alpha p1 p2 alpha_blx (O.blxU g j 0) (O.blxU g j 1)
    mutar_gauss hijo min_lat max_lat min_lon max_lon 0.0007 0.0007 0.25
      (O.mutR g j) (O.mutG g j 0) (O.mutG g j 1))

/-- `candidatos.sort(key=lambda x: x[2], reverse=True)`: stable descending
sort of the final `(lat, lon, fitness)` triples by fitness. -/
noncomputable def ordenCandidatos (candidatos : List (ℝ × ℝ × ℝ)) : List (ℝ × ℝ × ℝ) :=
  candidatos.mergeSort (fun c d => leReal d.2.2 c.2.2)

/-- `algoritmo_genetico_puntos_ciegos` from `algoritmo_genetico.py`. -/
noncomputable def algoritmo_genetico_puntos_ciegos (O : OraculoPC) (camaras : List Punto)
    (tam_poblacion : ℕ := 120) (generaciones : ℕ := 90)
    (num_puntos_resultado : ℕ := 10) (min_separacion_m : ℝ := 180.0)
    (radio_cobertura_m : ℝ := 80.0) (max_interes_m : ℝ := 350.0)
    (max_extrapolacion_m : ℝ := 900.0) (k_vecinos : ℤ := 4)
    (elitismo : ℕ := 4) (k_torneo : ℕ := 4) (alpha_blx : ℝ := 0.5)
    (bbox_margin_factor : ℝ := 0.15) : List (ℝ × ℝ × ℝ) :=
  if camaras = [] then []
  else
    let bb := _bbox camaras
    let lat_span := max (bb.2.1 - bb.1) 1e-9
    let lon_span := max (bb.2.2.2 - bb.2.2.1) 1e-9
    let min_lat := bb.1 - lat_span * bbox_margin_factor
    let max_lat := bb.2.1 + lat_span * bbox_margin_factor
    let min_lon := bb.2.2.1 - lon_span * bbox_margin_factor
    let max_lon := bb.2.2.2 + lon_span * bbox_margin_factor
    let f := fun p => fitness_punto_completo p camaras radio_cobertura_m max_interes_m
      max_extrapolacion_m k_vecinos
    let pob0 := (List.range tam_poblacion).map (fun i =>
      (unifModel min_lat max_lat (O.initU i 0), unifModel min_lon max_lon (O.initU i 1)))
    let pobF := (List.range generaciones).foldl
      (fun pob g => sigGeneracionPC f elitismo tam_poblacion k_torneo alpha_blx
        min_lat max_lat min_lon max_lon O g pob) pob0
    let fitnesses_final := pobF.map f
    let candidatos := (pobF.zip fitnesses_final).map (fun pf => (pf.1.1, pf.1.2, pf.2))
    seleccionar_espaciados (ordenCandidatos candidatos) min_separacion_m num_puntos_resultado

/-- The row-major lattice of the two nested `while` loops of
`generar_grid_puntos`: points `(min_lat + i*step_lat, min_lon + j*step_lon)`
emitted while the coordinate stays `≤` its upper bound.  For a non-positive
step the Python loop would not terminate; that region is unreachable in every
claim settled here (the empty-camera short-circuit precedes it) and is mapped
to `[]`. -/
noncomputable def puntosRejilla (min_lat max_lat min_lon max_lon step_lat step_lon : ℝ) :
    List Punto :=
  if 0 < step_lat ∧ 0 < step_lon then
    let nlat := if max_lat < min_lat then 0 else ⌊(max_lat - min_lat) / step_lat⌋.toNat + 1
    let nlon := if max_lon < min_lon then 0 else ⌊(max_lon - min_lon) / step_lon⌋.toNat + 1
    (List.range nlat).flatMap (fun i =>
      (List.range nlon).map (fun j =>
        (min_lat + (i : ℝ) * step_lat, min_lon + (j : ℝ) * step_lon)))
  else []

/-- `generar_grid_puntos` from `ga_cobertura.py`.  `muestra` is the oracle for
the uniform subsample `random.sample(pts, k=max_points)` taken when the
lattice exceeds the cap;  `if max_points and len(pts) > max_points` is the
Python truthiness test on the integer `max_points`. -/
noncomputable def generar_grid_puntos (muestra : List Punto → ℕ → List Punto)
    (camaras : List Punto) (step_m : ℝ := 150.0) (margin_factor : ℝ := 0.05)
    (max_points : ℕ := 6000) : List Punto :=
  if camaras = [] then []
  else
    let bb := _bbox camaras
    let lat_span := max (bb.2.1 - bb.1) 1e-9
    let lon_span := max (bb.2.2.2 - bb.2.2.1) 1e-9
    let min_lat := bb.1 - lat_span * margin_factor
    let max_lat := bb.2.1 + lat_span * margin_factor
    let min_lon := bb.2.2.1 - lon_span * margin_factor
    let max_lon := bb.2.2.2 + lon_span * margin_factor
    let mid_lat := (min_lat + max_lat) / 2.0
    let m_per_deg_lat : ℝ := 111320.0
    let m_per_deg_lon : ℝ := 111320.0 * Real.cos (radians mid_lat)
    let step_lat := step_m / m_per_deg_lat
    let step_lon := step_m / max m_per_deg_lon 1e-6
    let pts := puntosRejilla min_lat max_lat min_lon max_lon step_lat step_lon
    if max_points ≠ 0 ∧ max_points < pts.length then muestra pts max_points else pts

/-- `contar_cobertura_en_punto` from `ga_cobertura.py`. -/
noncomputable def contar_cobertura_en_punto (punto : Punto) (camaras : List Punto)
    (radio_m : ℝ) : ℕ :=
  camaras.foldl (fun count c =>
    if haversine_m punto.1 punto.2 c.1 c.2 ≤ radio_m then count + 1 else count) 0

/-- The five-entry dict returned by `metricas_niveles_cobertura`, with its
keys as fields. -/
structure Metricas where
  cobertura_total : ℝ
  sin_cobertura : ℝ
  nivel_1 : ℝ
  nivel_2 : ℝ
  nivel_3_mas : ℝ

/-- The classification loop of `metricas_niveles_cobertura`: one pass over the
grid incrementing the `{0, 1, 2, ≥3}` bucket counters `(c0, c1, c2, c3)`. -/
noncomputable def conteoNiveles (puntos_eval : List Punto) (camaras : List Punto)
    (radio_m : ℝ) : ℕ × ℕ × ℕ × ℕ :=
  puntos_eval.foldl (fun acc p =>
    let k := contar_cobertura_en_punto p camaras radio_m
    if k ≤ 0 then (acc.1 + 1, acc.2.1, acc.2.2.1, acc.2.2.2)
    else if k = 1 then (acc.1, acc.2.1 + 1, acc.2.2.1, acc.2.2.2)
    else if k = 2 then (acc.1, acc.2.1, acc.2.2.1 + 1, acc.2.2.2)
    else (acc.1, acc.2.1, acc.2.2.1, acc.2.2.2 + 1)) (0, 0, 0, 0)

/-- `metricas_niveles_cobertura` from `ga_cobertura.py`. -/
noncomputable def metricas_niveles_cobertura (puntos_eval : List Punto)
    (camaras_totales : List Punto) (radio_m : ℝ) : Metricas :=
  if puntos_eval = [] then ⟨0.0, 100.0, 0.0, 0.0, 0.0⟩
  else
    let n : ℝ := puntos_eval.length
    let c := conteoNiveles puntos_eval camaras_totales radio_m
    let sin_cob := ((c.1 : ℝ) / n) * 100.0
    let cov_total := 100.0 - sin_cob
    ⟨cov_total, sin_cob, ((c.2.1 : ℝ) / n) * 100.0, ((c.2.2.1 : ℝ) / n) * 100.0,
      ((c.2.2.2 : ℝ) / n) * 100.0⟩

/-- The new-vs-new double loop of `_penalizar_camaras_muy_cercanas`
(`for i in range(n): for j in range(i+1, n)`), decomposed on the head. -/
noncomputable def penNuevasNuevas (min_dist_entre_nuevas_m peso : ℝ) :
    List Punto → ℝ
  | [] => 0
  | p :: rest =>
    (rest.map (fun q =>
      let d := haversine_m p.1 p.2 q.1 q.2
      if d < min_dist_entre_nuevas_m then
        peso * (1.0 - d / max min_dist_entre_nuevas_m 1e-6)
      else 0)).sum + penNuevasNuevas min_dist_entre_nuevas_m peso rest

/-- `_penalizar_camaras_muy_cercanas` from `ga_cobertura.py`.  In the
new-vs-existing part, `dmin is None` (no existing cameras) contributes no
penalty, which the `[]` match arm reproduces. -/
noncomputable def _penalizar_camaras_muy_cercanas
    (camaras_nuevas camaras_existentes : List Punto)
    (min_dist_entre_nuevas_m min_dist_a_existentes_m peso_penalizacion : ℝ) : ℝ :=
  let pen1 := penNuevasNuevas min_dist_entre_nuevas_m peso_penalizacion camaras_nuevas
  let pen2 :=
    if 0 < min_dist_a_existentes_m then
      (camaras_nuevas.map (fun p =>
        match camaras_existentes with
        | [] => 0
        | e :: es =>
          let dmin := (es.map (fun q => haversine_m p.1 p.2 q.1 q.2)).foldl min
            (haversine_m p.1 p.2 e.1 e.2)
          if dmin < min_dist_a_existentes_m then
            (peso_penalizacion * 0.75) * (1.0 - dmin / max min_dist_a_existentes_m 1e-6)
          else 0)).sum
    else 0
  pen1 + pen2

/-- `fitness_cobertura` from `ga_cobertura.py`. -/
noncomputable def fitness_cobertura (puntos_eval camaras_existentes camaras_nuevas : List Punto)
    (radio_m : ℝ) (penalizar_sobrecobertura : Bool := true)
    (peso_sobrecobertura : ℝ := 0.15) (penalizar_cercania : Bool := true)
    (min_dist_entre_nuevas_m : ℝ := 180.0) (min_dist_a_existentes_m : ℝ := 60.0)
    (peso_cercania : ℝ := 10.0) : ℝ :=
  let cam_tot := camaras_existentes ++ camaras_nuevas
  let met := metricas_niveles_cobertura puntos_eval cam_tot radio_m
  let score := met.cobertura_total
  let score := if penalizar_sobrecobertura then score - peso_sobrecobertura * met.nivel_3_mas
    else score
  let score := if penalizar_cercania ∧ camaras_nuevas ≠ [] then
      score - _penalizar_camaras_muy_cercanas camaras_nuevas camaras_existentes
        min_dist_entre_nuevas_m min_dist_a_existentes_m peso_cercania
    else score
  _clamp score 0.0 100.0

/-- One replacement draw of the repair engine: `random.uniform` on both axes
of the working bounding box, from unit draws `fresh c` and `fresh (c + 1)`. -/
noncomputable def puntoFresco (min_lat max_lat min_lon max_lon : ℝ) (fresh : ℕ → ℝ)
    (c : ℕ) : Punto :=
  (unifModel min_lat max_lat (fresh c), unifModel min_lon max_lon (fresh (c + 1)))

/-- The "contra existentes" pass of `_repair_separacion`: every point closer
than `min_dist_a_existentes_m` to some existing camera is replaced in place by
a fresh random point.  The state is (list, changed flag, draw counter). -/
noncomputable def repairPasoExistentes (camaras_existentes : List Punto)
    (min_lat max_lat min_lon max_lon min_dist_a_existentes_m : ℝ) (fresh : ℕ → ℝ)
    (st : List Punto × Bool × ℕ) : List Punto × Bool × ℕ :=
  if 0 < min_dist_a_existentes_m then
    (List.range st.1.length).foldl (fun s i =>
      let p := s.1.getD i (0, 0)
      if ∃ e ∈ camaras_existentes,
          haversine_m p.1 p.2 e.1 e.2 < min_dist_a_existentes_m then
        (s.1.set i (puntoFresco min_lat max_lat min_lon max_lon fresh s.2.2),
          true, s.2.2 + 2)
      else s) st
  else st

/-- The new-vs-new pass of `_repair_separacion`: for every pair `i < j` closer
than `min_dist_entre_nuevas_m`, the second point of the pair is replaced. -/
noncomputable def repairPasoPares (min_lat max_lat min_lon max_lon
    min_dist_entre_nuevas_m : ℝ) (fresh : ℕ → ℝ)
    (st : List Punto × Bool × ℕ) : List Punto × Bool × ℕ :=
  (List.range st.1.length).foldl (fun s i =>
    (List.range (s.1.length - (i + 1))).foldl (fun s2 t =>
      let j := i + 1 + t
      let a := s2.1.getD i (0, 0)
      let b := s2.1.getD j (0, 0)
      if haversine_m a.1 a.2 b.1 b.2 < min_dist_entre_nuevas_m then
        (s2.1.set j (puntoFresco min_lat max_lat min_lon max_lon fresh s2.2.2),
          true, s2.2.2 + 2)
      else s2) s) st

/-- The bounded repair loop: `for _ in range(max_iters)` running both passes,
with early exit as soon as a full pass makes no change. -/
noncomputable def repairBucle (camaras_existentes : List Punto)
    (min_lat max_lat min_lon max_lon min_dist_entre_nuevas_m
      min_dist_a_existentes_m : ℝ) (fresh : ℕ → ℝ) :
    ℕ → List Punto × ℕ → List Punto × ℕ
  | 0, oc => oc
  | fuel + 1, oc =>
    let st := repairPasoPares min_lat max_lat min_lon max_lon min_dist_entre_nuevas_m
      fresh (repairPasoExistentes camaras_existentes min_lat max_lat min_lon max_lon
        min_dist_a_existentes_m fresh (oc.1, false, oc.2))
    if st.2.1 then
      repairBucle camaras_existentes min_lat max_lat min_lon max_lon
        min_dist_entre_nuevas_m min_dist_a_existentes_m fresh fuel (st.1, st.2.2)
    else (st.1, st.2.2)

/-- `_repair_separacion` from `ga_cobertura.py`. -/
noncomputable def _repair_separacion (ind : List Punto) (camaras_existentes : List Punto)
    (min_lat max_lat min_lon max_lon : ℝ)
    (min_dist_entre_nuevas_m min_dist_a_existentes_m : ℝ) (fresh : ℕ → ℝ)
    (max_iters : ℕ := 35) : List Punto :=
  (repairBucle camaras_existentes min_lat max_lat min_lon max_lon
      min_dist_entre_nuevas_m min_dist_a_existentes_m fresh max_iters (ind, 0)).1.map
    (fun p => (_clamp p.1 min_lat max_lat, _clamp p.2 min_lon max_lon))

/-- `_seleccion_torneo` from `ga_cobertura.py` (the same code as
`seleccion_torneo` of `algoritmo_genetico.py`, over multi-point
individuals). -/
noncomputable def _seleccion_torneo (poblacion : List (List Punto)) (fitnesses : List ℝ)
    (k : ℕ) (n : ℕ) (samp : ℕ → ℕ → ℕ) : List (List Punto) :=
  (List.range n).map (fun t =>
    let contendientes := (List.range (min k poblacion.length)).map
      (fun pos => samp t pos % poblacion.length)
    poblacion.getD (mejorIndice fitnesses contendientes) [])

/-- `_cruzar_individuo_blx` from `ga_cobertura.py`: pointwise BLX over the
shorter parent length; `u` supplies the unit draws (two per position). -/
noncomputable def _cruzar_individuo_blx (p1 p2 : List Punto) (alpha : ℝ)
    (u : ℕ → ℝ) : List Punto :=
  (List.range (min p1.length p2.length)).map (fun i =>
    (_blx (p1.getD i (0, 0)).1 (p2.getD i (0, 0)).1 alpha (u (2 * i)),
     _blx (p1.getD i (0, 0)).2 (p2.getD i (0, 0)).2 alpha (u (2 * i + 1))))

/-- `_mutar_individuo_gauss` from `ga_cobertura.py`: per point, one gate draw
`r i` and two unit-normal draws `gz i`. -/
noncomputable def _mutar_individuo_gauss (ind : List Punto)
    (min_lat max_lat min_lon max_lon : ℝ) (prob_mut : ℝ := 0.35)
    (sigma_lat : ℝ := 0.0007) (sigma_lon : ℝ := 0.0007)
    (r : ℕ → ℝ := fun _ => 0) (gz : ℕ → ℕ → ℝ := fun _ _ => 0) : List Punto :=
  (List.range ind.length).map (fun i =>
    let p := ind.getD i (0, 0)
    let lat := p.1 + (if r i < prob_mut then sigma_lat * gz i 0 else 0)
    let lon := p.2 + (if r i < prob_mut then sigma_lon * gz i 1 else 0)
    (_clamp lat min_lat max_lat, _clamp lon min_lon max_lon))

/-- Oracle for the random draws of `algoritmo_genetico_mejorar_cobertura`:
`muestraGrid` is the grid subsample, `fallbackIdx` the indices of the
`random.sample` fallback over the cameras, `semUse i` / `semIdx i` the seed
gate and seed sample indices of individual `i`, `fillU i` its uniform fill
draws, `repairInit i` its repair draws; per generation `g` and child slot `j`,
`samp g`, `eleccion1/eleccion2 g j`, `blxU g j`, `mutR g j`, `mutG g j` and
`repairGen g j` supply the tournament, parent-choice, crossover, mutation and
repair draws. -/
structure OraculoGC where
  muestraGrid : List Punto → ℕ → List Punto
  fallbackIdx : ℕ → ℕ
  semUse : ℕ → ℝ
  semIdx : ℕ → ℕ → ℕ
  fillU : ℕ → ℕ → ℕ → ℝ
  repairInit : ℕ → ℕ → ℝ
  samp : ℕ → ℕ → ℕ → ℕ
  eleccion1 : ℕ → ℕ → ℕ
  eleccion2 : ℕ → ℕ → ℕ
  blxU : ℕ → ℕ → ℕ → ℝ
  mutR : ℕ → ℕ → ℕ → ℝ
  mutG : ℕ → ℕ → ℕ → ℕ → ℝ
  repairGen : ℕ → ℕ → ℕ → ℝ

/-- `_crear_individuo` (closure inside `algoritmo_genetico_mejorar_cobertura`):
optionally take a sample of the clamped seed points, fill with uniform points
in the expanded box up to `n_camaras_nuevas`, clamp, and repair.  `i` is the
index of the individual being created, addressing the oracle. -/
noncomputable def _crear_individuo (O : OraculoGC) (semillas : List Punto)
    (n_camaras_nuevas : ℕ) (prob_usar_semilla : ℝ) (camaras_existentes : List Punto)
    (min_lat max_lat min_lon max_lon : ℝ) (penalizar_cercania : Bool)
    (min_dist_entre_nuevas_m min_dist_a_existentes_m : ℝ) (i : ℕ) : List Punto :=
  let ind0 :=
    if semillas ≠ [] ∧ O.semUse i < prob_usar_semilla then
      (List.range (min semillas.length n_camaras_nuevas)).map
        (fun t => semillas.getD (O.semIdx i t % semillas.length) (0, 0))
    else []
  let ind1 := ind0 ++ (List.range (n_camaras_nuevas - ind0.length)).map (fun t =>
    (unifModel min_lat max_lat (O.fillU i t 0), unifModel min_lon max_lon (O.fillU i t 1)))
  let ind2 := ind1.map (fun p => (_clamp p.1 min_lat max_lat, _clamp p.2 min_lon max_lon))
  if penalizar_cercania then
    _repair_separacion ind2 camaras_existentes min_lat max_lat min_lon max_lon
      min_dist_entre_nuevas_m min_dist_a_existentes_m (O.repairInit i)
  else ind2

/-- The per-run static data read by the coverage GA generation step. -/
structure EntornoGC where
  puntos_eval : List Punto
  camaras_existentes : List Punto
  min_lat : ℝ
  max_lat : ℝ
  min_lon : ℝ
  max_lon : ℝ

/-- The configuration parameters read by the coverage GA generation step. -/
structure ConfigGC where
  n_camaras_nuevas : ℕ
  radio_m : ℝ
  tam_poblacion : ℕ
  elitismo : ℕ
  k_torneo : ℕ
  alpha_blx : ℝ
  penalizar_sobrecobertura : Bool
  penalizar_cercania : Bool
  min_dist_entre_nuevas_m : ℝ
  min_dist_a_existentes_m : ℝ
  peso_cercania : ℝ

/-- The loop state of the coverage GA: current population plus the tracked
best-ever individual and fitness. -/
structure EstadoGC where
  pob : List (List Punto)
  best_ind : List Punto
  best_fit : ℝ

/-- One fitness evaluation of the coverage GA loop (the call to
`fitness_cobertura` followed by `fitnesses.append(_clamp(fit, 0.0, 100.0))`;
`peso_sobrecobertura` is left at its default `0.15`, as in the source call). -/
noncomputable def aptitudGC (cfg : ConfigGC) (E : EntornoGC) (ind : List Punto) : ℝ :=
  _clamp (fitness_cobertura E.puntos_eval E.camaras_existentes ind cfg.radio_m
    cfg.penalizar_sobrecobertura 0.15 cfg.penalizar_cercania cfg.min_dist_entre_nuevas_m
    cfg.min_dist_a_existentes_m cfg.peso_cercania) 0.0 100.0

/-- One child of the coverage GA reproduce loop (crossover, mutation, clamp,
repair), for slot `j` of generation `g`. -/
noncomputable def hijoGC (cfg : ConfigGC) (E : EntornoGC) (O : OraculoGC) (g : ℕ)
    (padres : List (List Punto)) (j : ℕ) : List Punto :=
  let p1 := padres.getD (O.eleccion1 g j % padres.length) []
  let p2 := padres.getD (O.eleccion2 g j % padres.length) []
  let h1 := _cruzar_individuo_blx p1 p2 cfg.alpha_blx (O.blxU g j)
  let h2 := _mutar_individuo_gauss h1 E.min_lat E.max_lat E.min_lon E.max_lon
    0.35 0.0007 0.0007 (O.mutR g j) (O.mutG g j)
  let h3 := h2.map (fun p => (_clamp p.1 E.min_lat E.max_lat, _clamp p.2 E.min_lon E.max_lon))
  if cfg.penalizar_cercania then
    _repair_separacion h3 E.camaras_existentes E.min_lat E.max_lat E.min_lon E.max_lon
      cfg.min_dist_entre_nuevas_m cfg.min_dist_a_existentes_m (O.repairGen g j)
  else h3

/-- One generation of the coverage GA (`for _ in range(generaciones)` body):
evaluate, update the best-ever tracking, copy the elites, tournament-select
parents, and fill the next population with children. -/
noncomputable def pasoGC (cfg : ConfigGC) (E : EntornoGC) (O : OraculoGC) (g : ℕ)
    (s : EstadoGC) : EstadoGC :=
  let fitnesses := s.pob.map (aptitudGC cfg E)
  let i_best := mejorIndice fitnesses (List.range s.pob.length)
  let m := fitnesses.getD i_best 0
  let best_fit := if s.best_fit < m then m else s.best_fit
  let best_ind := if s.best_fit < m then s.pob.getD i_best [] else s.best_ind
  let elites := elitesDe [] s.pob fitnesses cfg.elitismo
  let padres := _seleccion_torneo s.pob fitnesses cfg.k_torneo cfg.tam_poblacion (O.samp g)
  ⟨elites ++ (List.range (cfg.tam_poblacion - elites.length)).map
    (hijoGC cfg E O g padres), best_ind, best_fit⟩

/-- The state after `g` generations of the coverage GA loop. -/
noncomputable def estadoGC (cfg : ConfigGC) (E : EntornoGC) (O : OraculoGC)
    (s0 : EstadoGC) : ℕ → EstadoGC
  | 0 => s0
  | g + 1 => pasoGC cfg E O g (estadoGC cfg E O s0 g)

/-- The result dict of `algoritmo_genetico_mejorar_cobertura`;
`metricas = none` models the empty dict `{}` of the empty-input
short-circuit. -/
structure ResultadoCobertura where
  camaras_nuevas : List Punto
  fitness : ℝ
  metricas : Option Metricas

/-- `algoritmo_genetico_mejorar_cobertura` from `ga_cobertura.py`.  The input
cameras are already `(lat, lon)` pairs (`_get_lat_lon` is the identity on
pairs). -/
noncomputable def algoritmo_genetico_mejorar_cobertura (O : OraculoGC)
    (camaras_existentes_in : List Punto) (n_camaras_nuevas : ℕ := 5)
    (radio_m : ℝ := 120.0) (puntos_eval_in : Option (List Punto) := none)
    (step_grid_m : ℝ := 150.0) (grid_max_points : ℕ := 6000)
    (tam_poblacion : ℕ := 80) (generaciones : ℕ := 80) (elitismo : ℕ := 3)
    (k_torneo : ℕ := 4) (alpha_blx : ℝ := 0.5) (bbox_margin_factor : ℝ := 0.12)
    (penalizar_sobrecobertura : Bool := true) (penalizar_cercania : Bool := true)
    (min_dist_entre_nuevas_m : ℝ := 180.0) (min_dist_a_existentes_m : ℝ := 60.0)
    (peso_cercania : ℝ := 10.0) (puntos_semilla : Option (List Punto) := none)
    (prob_usar_semilla : ℝ := 0.60) : ResultadoCobertura :=
  if camaras_existentes_in = [] then ⟨[], 0.0, none⟩
  else
    let camaras_existentes := camaras_existentes_in
    let puntos_eval0 := match puntos_eval_in with
      | some p => p
      | none => generar_grid_puntos O.muestraGrid camaras_existentes step_grid_m 0.06
          grid_max_points
    let puntos_eval := if puntos_eval0 = [] then
        (List.range (min 200 camaras_existentes.length)).map
          (fun t => camaras_existentes.getD (O.fallbackIdx t % camaras_existentes.length)
            (0, 0))
      else puntos_eval0
    let bb := _bbox camaras_existentes
    let lat_span := max (bb.2.1 - bb.1) 1e-9
    let lon_span := max (bb.2.2.2 - bb.2.2.1) 1e-9
    let min_lat := bb.1 - lat_span * bbox_margin_factor
    let max_lat := bb.2.1 + lat_span * bbox_margin_factor
    let min_lon := bb.2.2.1 - lon_span * bbox_margin_factor
    let max_lon := bb.2.2.2 + lon_span * bbox_margin_factor
    let semillas := (puntos_semilla.getD []).map
      (fun p => (_clamp p.1 min_lat max_lat, _clamp p.2 min_lon max_lon))
    let cfg : ConfigGC := ⟨n_camaras_nuevas, radio_m, tam_poblacion, elitismo, k_torneo,
      alpha_blx, penalizar_sobrecobertura, penalizar_cercania, min_dist_entre_nuevas_m,
      min_dist_a_existentes_m, peso_cercania⟩
    let E : EntornoGC := ⟨puntos_eval, camaras_existentes, min_lat, max_lat, min_lon,
      max_lon⟩
    let pob0 := (List.range tam_poblacion).map
      (_crear_individuo O semillas n_camaras_nuevas prob_usar_semilla camaras_existentes
        min_lat max_lat min_lon max_lon penalizar_cercania min_dist_entre_nuevas_m
        min_dist_a_existentes_m)
    let sF := estadoGC cfg E O ⟨pob0, [], -1.0⟩ generaciones
    let cam_tot := camaras_existentes ++ sF.best_ind
    let met := metricas_niveles_cobertura puntos_eval cam_tot radio_m
    ⟨sF.best_ind.map (fun p => (p.1, p.2)), sF.best_fit, some met⟩

/-- A concrete all-zero blind-spot oracle, used to instantiate theorems at
specific inputs. -/
noncomputable def oraculoPCCero : OraculoPC :=
  ⟨fun _ _ => 0, fun _ _ _ => 0, fun _ _ => 0, fun _ _ => 0,
   fun _ _ _ => 0, fun _ _ => 0, fun _ _ _ => 0⟩

/-- A concrete all-zero coverage oracle, used to instantiate theorems at
specific inputs. -/
noncomputable def oraculoGCCero : OraculoGC :=
  ⟨fun _ _ => [], fun _ => 0, fun _ => 0, fun _ _ => 0, fun _ _ _ => 0,
   fun _ _ => 0, fun _ _ _ => 0, fun _ _ => 0, fun _ _ => 0,
   fun _ _ _ => 0, fun _ _ _ => 0, fun _ _ _ _ => 0, fun _ _ _ => 0⟩

lemma clamp_lo_le (v lo hi : ℝ) : lo ≤ _clamp v lo hi := le_max_left _ _

lemma clamp_le_hi (v lo hi : ℝ) (h : lo ≤ hi) : _clamp v lo hi ≤ hi :=
  max_le h (min_le_left _ _)

lemma clamp_pos (v hi : ℝ) (hv : 0 < v) (hhi : 0 < hi) : 0 < _clamp v 0 hi :=
  lt_of_lt_of_le (lt_min hhi hv) (le_max_right _ _)

lemma fitness_punto_completo_mem (punto : Punto) (camaras : List Punto)
    (r mi me : ℝ) (k : ℤ) (b : ℝ) :
    0 ≤ fitness_punto_completo punto camaras r mi me k b ∧
      fitness_punto_completo punto camaras r mi me k b ≤ 1 := by
  unfold fitness_punto_completo
  by_cases h : camaras = []
  · rw [if_pos h]; norm_num
  · simp only [if_neg h]
    by_cases h2 : _dist_min_a_camaras punto.1 punto.2 camaras ≤ r
    · rw [if_pos h2]
      exact ⟨le_trans (by norm_num) (clamp_lo_le _ _ _),
        le_trans (clamp_le_hi _ _ _ (by norm_num)) (by norm_num)⟩
    · rw [if_neg h2]
      exact ⟨le_trans (by norm_num) (clamp_lo_le _ _ _),
        le_trans (clamp_le_hi _ _ _ (by norm_num)) (by norm_num)⟩

lemma getD_mem {α : Type} {l : List α} {i : ℕ} (d : α) (h : i < l.length) :
    l.getD i d ∈ l := by
  rw [List.getD_eq_getElem?_getD, List.getElem?_eq_getElem h, Option.getD_some]
  exact List.getElem_mem h

lemma getD_map {α : Type} (f : α → ℝ) (l : List α) (i : ℕ) (d : α) (h : i < l.length) :
    (l.map f).getD i 0 = f (l.getD i d) := by
  rw [List.getD_eq_getElem?_getD, List.getD_eq_getElem?_getD, List.getElem?_map,
    List.getElem?_eq_getElem h]
  simp

lemma le_foldl_max (l : List ℝ) (d : ℝ) : d ≤ l.foldl max d := by
  induction l generalizing d with
  | nil => simp
  | cons a t ih => exact le_trans (le_max_left d a) (ih (max d a))

lemma mem_le_foldl_max (l : List ℝ) (d : ℝ) (x : ℝ) (hx : x ∈ l) :
    x ≤ l.foldl max d := by
  induction l generalizing d with
  | nil => cases hx
  | cons a t ih =>
    simp only [List.foldl_cons]
    rcases List.mem_cons.mp hx with h | h
    · subst h
      exact le_trans (le_max_right d x) (le_foldl_max t (max d x))
    · exact ih (max d a) h

lemma foldl_max_le_ub (l : List ℝ) (d m : ℝ) (hd : d ≤ m) (h : ∀ x ∈ l, x ≤ m) :
    l.foldl max d ≤ m := by
  induction l generalizing d with
  | nil => exact hd
  | cons a t ih =>
    exact ih (max d a) (max_le hd (h a (by simp))) (fun x hx => h x (by simp [hx]))

lemma foldl_max_eq (l : List ℝ) (d m : ℝ) (hm : m ∈ l) (h : ∀ x ∈ l, x ≤ m) :
    l.foldl max d = max d m :=
  le_antisymm
    (foldl_max_le_ub l d (max d m) (le_max_left _ _)
      (fun x hx => le_trans (h x hx) (le_max_right _ _)))
    (max_le (le_foldl_max l d) (mem_le_foldl_max l d m hm))

lemma mejorIndice_foldl_mem (fits : List ℝ) (l : List ℕ) (b : ℕ) :
    l.foldl (fun b j => if fits.getD b 0 < fits.getD j 0 then j else b) b ∈ b :: l := by
  induction l generalizing b with
  | nil => simp
  | cons a t ih =>
    simp only [List.foldl_cons]
    by_cases h : fits.getD b 0 < fits.getD a 0
    · rw [if_pos h]
      exact List.mem_cons_of_mem b (ih a)
    · rw [if_neg h]
      rcases List.mem_cons.mp (ih b) with h2 | h2
      · rw [h2]; exact List.mem_cons_self b (a :: t)
      · exact List.mem_cons_of_mem b (List.mem_cons_of_mem a h2)

lemma mejorIndice_foldl_ub (fits : List ℝ) (l : List ℕ) (b : ℕ) :
    fits.getD b 0 ≤
      fits.getD (l.foldl (fun b j => if fits.getD b 0 < fits.getD j 0 then j else b) b) 0 ∧
    ∀ j ∈ l, fits.getD j 0 ≤
      fits.getD (l.foldl (fun b j => if fits.getD b 0 < fits.getD j 0 then j else b) b) 0 := by
  induction l generalizing b with
  | nil => exact ⟨le_refl _, by simp⟩
  | cons a t ih =>
    simp only [List.foldl_cons]
    by_cases h : fits.getD b 0 < fits.getD a 0
    · rw [if_pos h]
      refine ⟨le_trans (le_of_lt h) (ih a).1, fun j hj => ?_⟩
      rcases List.mem_cons.mp hj with h2 | h2
      · exact h2 ▸ (ih a).1
      · exact (ih a).2 j h2
    · rw [if_neg h]
      refine ⟨(ih b).1, fun j hj => ?_⟩
      rcases List.mem_cons.mp hj with h2 | h2
      · exact h2 ▸ le_trans (le_of_not_lt h) (ih b).1
      · exact (ih b).2 j h2

lemma mejorIndice_mem (fits : List ℝ) (l : List ℕ) (hl : l ≠ []) :
    mejorIndice fits l ∈ l := by
  cases l with
  | nil => exact absurd rfl hl
  | cons i rest => exact mejorIndice_foldl_mem fits rest i

lemma mejorIndice_ub (fits : List ℝ) (l : List ℕ) (j : ℕ) (hj : j ∈ l) :
    fits.getD j 0 ≤ fits.getD (mejorIndice fits l) 0 := by
  cases l with
  | nil => cases hj
  | cons i rest =>
    rcases List.mem_cons.mp hj with h | h
    · exact h ▸ (mejorIndice_foldl_ub fits rest i).1
    · exact (mejorIndice_foldl_ub fits rest i).2 j h

lemma mejorIndiceRange_lt (fits : List ℝ) (h : fits ≠ []) :
    mejorIndice fits (List.range fits.length) < fits.length := by
  have h1 : List.range fits.length ≠ [] := by
    simpa [List.range_eq_nil] using (List.length_pos.mpr h).ne'
  simpa using List.mem_range.mp (mejorIndice_mem fits _ h1)

lemma mejorIndiceRange_ub (fits : List ℝ) (x : ℝ) (hx : x ∈ fits) :
    x ≤ fits.getD (mejorIndice fits (List.range fits.length)) 0 := by
  rcases List.getElem_of_mem hx with ⟨i, hi, rfl⟩
  have : fits.getD i 0 = fits[i] := by
    rw [List.getD_eq_getElem?_getD, List.getElem?_eq_getElem hi, Option.getD_some]
  rw [← this]
  exact mejorIndice_ub fits _ i (List.mem_range.mpr hi)

lemma mejorIndiceRange_getD_mem (fits : List ℝ) (h : fits ≠ []) :
    fits.getD (mejorIndice fits (List.range fits.length)) 0 ∈ fits :=
  getD_mem 0 (mejorIndiceRange_lt fits h)

lemma ordenDesc_perm (fits : List ℝ) :
    (ordenDesc fits).Perm (List.range fits.length) :=
  List.mergeSort_perm _ _

lemma ordenDesc_mem_lt (fits : List ℝ) (i : ℕ) (hi : i ∈ ordenDesc fits) :
    i < fits.length := by
  have := (ordenDesc_perm fits).mem_iff.mp hi
  simpa using this

lemma ordenDesc_ne_nil (fits : List ℝ) (h : fits ≠ []) : ordenDesc fits ≠ [] := by
  have hlen : (ordenDesc fits).length = fits.length := by
    simpa using (ordenDesc_perm fits).length_eq
  intro hcon
  rw [hcon] at hlen
  exact (List.length_pos.mpr h).ne' hlen.symm

lemma ordenDesc_sorted (fits : List ℝ) :
    List.Pairwise (fun a b : ℕ => leReal (fits.getD b 0) (fits.getD a 0) = true)
      (ordenDesc fits) := by
  unfold ordenDesc
  apply List.sorted_mergeSort
  · intro a b c hab hbc
    simp only [leReal, decide_eq_true_eq] at hab hbc ⊢
    exact le_trans hbc hab
  · intro a b
    simp only [leReal, Bool.or_eq_true, decide_eq_true_eq]
    exact le_total (fits.getD b 0) (fits.getD a 0)

lemma ordenDesc_head_ub (fits : List ℝ) (i : ℕ) (rest : List ℕ)
    (h : ordenDesc fits = i :: rest) (j : ℕ) (hj : j < fits.length) :
    fits.getD j 0 ≤ fits.getD i 0 := by
  have hmem : j ∈ ordenDesc fits :=
    (ordenDesc_perm fits).mem_iff.mpr (List.mem_range.mpr hj)
  rw [h] at hmem
  rcases List.mem_cons.mp hmem with h2 | h2
  · exact h2 ▸ le_refl _
  · have hsort := ordenDesc_sorted fits
    rw [h] at hsort
    have := (List.pairwise_cons.mp hsort).1 j h2
    simpa [leReal] using this

lemma elitesDe_eq_cons {α : Type} (dflt : α) (pob : List α) (fits : List ℝ) (e : ℕ)
    (i : ℕ) (rest : List ℕ) (h : ordenDesc fits = i :: rest) :
    elitesDe dflt pob fits e =
      pob.getD i dflt :: (rest.take (max 1 e - 1)).map (fun j => pob.getD j dflt) := by
  unfold elitesDe
  rw [h]
  have h1 : max 1 e = (max 1 e - 1) + 1 :=
    (Nat.succ_pred_eq_of_pos (lt_of_lt_of_le one_pos (le_max_left 1 e))).symm
  rw [h1, List.take_succ_cons, List.map_cons]
  simp

lemma elitesDe_ne_nil {α : Type} (dflt : α) (pob : List α) (fits : List ℝ) (e : ℕ)
    (h : fits ≠ []) : elitesDe dflt pob fits e ≠ [] := by
  cases hh : ordenDesc fits with
  | nil => exact absurd hh (ordenDesc_ne_nil fits h)
  | cons i rest =>
    rw [elitesDe_eq_cons dflt pob fits e i rest hh]
    exact List.cons_ne_nil _ _

lemma elitesDe_subset {α : Type} (dflt : α) (pob : List α) (fits : List ℝ) (e : ℕ)
    (hlen : fits.length = pob.length) :
    ∀ x ∈ elitesDe dflt pob fits e, x ∈ pob := by
  intro x hx
  unfold elitesDe at hx
  rcases List.mem_map.mp hx with ⟨i, hi, rfl⟩
  have h1 : i ∈ ordenDesc fits := List.mem_of_mem_take hi
  exact getD_mem dflt (hlen ▸ ordenDesc_mem_lt fits i h1)

lemma elitesDe_best {α : Type} (dflt : α) (pob : List α) (f : α → ℝ) (e : ℕ)
    (h : pob ≠ []) :
    ∃ x, x ∈ elitesDe dflt pob (pob.map f) e ∧ x ∈ pob ∧ ∀ y ∈ pob, f y ≤ f x := by
  have hfits : (pob.map f) ≠ [] := by simpa using h
  obtain ⟨i, rest, hord⟩ : ∃ i rest, ordenDesc (pob.map f) = i :: rest := by
    cases hh : ordenDesc (pob.map f) with
    | nil => exact absurd hh (ordenDesc_ne_nil _ hfits)
    | cons i rest => exact ⟨i, rest, rfl⟩
  have hilt : i < pob.length := by
    have := ordenDesc_mem_lt (pob.map f) i (by rw [hord]; exact List.mem_cons_self _ _)
    simpa using this
  refine ⟨pob.getD i dflt, ?_, getD_mem dflt hilt, ?_⟩
  · rw [elitesDe_eq_cons dflt pob _ e i rest hord]
    exact List.mem_cons_self _ _
  · intro y hy
    rcases List.getElem_of_mem hy with ⟨idx, hidx, rfl⟩
    have h1 : (pob.map f).getD idx 0 = f (pob.getD idx dflt) := getD_map f pob idx dflt hidx
    have h2 : (pob.map f).getD i 0 = f (pob.getD i dflt) := getD_map f pob i dflt hilt
    have h3 := ordenDesc_head_ub (pob.map f) i rest hord idx (by simpa using hidx)
    rw [h1, h2] at h3
    have h4 : pob.getD idx dflt = pob[idx] := by
      rw [List.getD_eq_getElem?_getD, List.getElem?_eq_getElem hidx, Option.getD_some]
    rw [h4] at h3
    exact h3

lemma haversine_same (lat lon : ℝ) : haversine_m lat lon lat lon = 0 := by
  simp [haversine_m, radians, sub_self]

lemma foldl_paso_extiende {α : Type} (f : List α → α → List α)
    (hf : ∀ sel c, f sel c = sel ∨ f sel c = sel ++ [c]) :
    ∀ (cs : List α) (sel : List α), ∃ t, cs.foldl f sel = sel ++ t ∧ t.Sublist cs := by
  intro cs
  induction cs with
  | nil => exact fun sel => ⟨[], by simp, List.nil_sublist _⟩
  | cons c cs ih =>
    intro sel
    rcases hf sel c with h | h
    · rcases ih sel with ⟨t, ht1, ht2⟩
      exact ⟨t, by simp [List.foldl_cons, h, ht1], ht2.cons c⟩
    · rcases ih (sel ++ [c]) with ⟨t, ht1, ht2⟩
      exact ⟨c :: t, by simp [List.foldl_cons, h, ht1], ht2.cons₂ c⟩

lemma foldl_paso_le_max {α : Type} (m : ℕ) (f : List α → α → List α)
    (hf : ∀ sel c, f sel c = sel ∨ f sel c = sel ++ [c])
    (hm : ∀ sel c, m ≤ sel.length → f sel c = sel) :
    ∀ (cs : List α) (sel : List α), sel.length ≤ m → (cs.foldl f sel).length ≤ m := by
  intro cs
  induction cs with
  | nil => intro sel h; simpa using h
  | cons c cs ih =>
    intro sel h
    rcases Nat.lt_or_ge sel.length m with hlt | hge
    · rcases hf sel c with h2 | h2
      · rw [List.foldl_cons, h2]; exact ih sel h
      · rw [List.foldl_cons, h2]; exact ih _ (by simpa using hlt)
    · rw [List.foldl_cons, hm sel c hge]
      exact ih sel h

lemma pasoEspaciado_forma (ms : ℝ) (mp : ℕ) (sel : List (ℝ × ℝ × ℝ)) (c : ℝ × ℝ × ℝ) :
    pasoEspaciado ms mp sel c = sel ∨ pasoEspaciado ms mp sel c = sel ++ [c] := by
  unfold pasoEspaciado
  split_ifs <;> simp

lemma pasoEspaciado_lleno (ms : ℝ) (mp : ℕ) (sel : List (ℝ × ℝ × ℝ)) (c : ℝ × ℝ × ℝ)
    (h : mp ≤ sel.length) : pasoEspaciado ms mp sel c = sel := by
  unfold pasoEspaciado
  rw [if_pos h]

lemma pasoRelleno_forma (mp : ℕ) (sel : List (ℝ × ℝ × ℝ)) (c : ℝ × ℝ × ℝ) :
    pasoRelleno mp sel c = sel ∨ pasoRelleno mp sel c = sel ++ [c] := by
  unfold pasoRelleno
  split_ifs <;> simp

lemma pasoRelleno_lleno (mp : ℕ) (sel : List (ℝ × ℝ × ℝ)) (c : ℝ × ℝ × ℝ)
    (h : mp ≤ sel.length) : pasoRelleno mp sel c = sel := by
  unfold pasoRelleno
  rw [if_pos h]

lemma pasoRelleno_nodup (mp : ℕ) (sel : List (ℝ × ℝ × ℝ)) (c : ℝ × ℝ × ℝ)
    (h : sel.Nodup) : (pasoRelleno mp sel c).Nodup := by
  unfold pasoRelleno
  split_ifs with h1 h2
  · exact h
  · exact h
  · simpa [List.nodup_append, h2] using h

lemma relleno_nodup (mp : ℕ) :
    ∀ (cs : List (ℝ × ℝ × ℝ)) (sel : List (ℝ × ℝ × ℝ)), sel.Nodup →
      (cs.foldl (pasoRelleno mp) sel).Nodup := by
  intro cs
  induction cs with
  | nil => exact fun sel h => h
  | cons c cs ih =>
    intro sel h
    rw [List.foldl_cons]
    exact ih _ (pasoRelleno_nodup mp sel c h)

lemma length_filter_particion {α : Type} (p : α → Bool) :
    ∀ l : List α, (l.filter p).length + (l.filter (fun x => !(p x))).length = l.length := by
  intro l
  induction l with
  | nil => simp
  | cons a t ih =>
    by_cases h : p a <;> simp [List.filter_cons, h] <;> omega

lemma length_filter_mem (cands g : List (ℝ × ℝ × ℝ)) (hc : cands.Nodup) (hg : g.Nodup)
    (hsub : ∀ x ∈ g, x ∈ cands) :
    (cands.filter (fun x => decide (x ∈ g))).length = g.length := by
  have h1 : (cands.filter (fun x => decide (x ∈ g))).Nodup := hc.filter _
  have h2 : ∀ a, a ∈ cands.filter (fun x => decide (x ∈ g)) ↔ a ∈ g := by
    intro a
    simp only [List.mem_filter, decide_eq_true_eq]
    exact ⟨fun h => h.2, fun h => ⟨hsub a h, h⟩⟩
  exact List.Perm.length_eq ((List.perm_ext_iff_of_nodup h1 hg).mpr h2)

lemma relleno_ge (mp : ℕ) :
    ∀ (cs : List (ℝ × ℝ × ℝ)), cs.Nodup → ∀ sel : List (ℝ × ℝ × ℝ),
      min mp (sel.length + (cs.filter (fun c => decide (c ∉ sel))).length) ≤
        (cs.foldl (pasoRelleno mp) sel).length := by
  intro cs
  induction cs with
  | nil =>
    intro _ sel
    simp only [List.foldl_nil, List.filter_nil, List.length_nil, Nat.add_zero]
    exact min_le_right mp sel.length
  | cons c cs ih =>
    intro hnd sel
    rcases Nat.lt_or_ge sel.length mp with hlt | hge
    · by_cases hmem : c ∈ sel
      · have hstep : pasoRelleno mp sel c = sel := by
          unfold pasoRelleno
          rw [if_neg (by omega), if_pos hmem]
        rw [List.foldl_cons, hstep]
        have hfil : (c :: cs).filter (fun x => decide (x ∉ sel)) =
            cs.filter (fun x => decide (x ∉ sel)) := by
          rw [List.filter_cons]
          simp [hmem]
        rw [hfil]
        exact ih hnd.of_cons sel
      · have hstep : pasoRelleno mp sel c = sel ++ [c] := by
          unfold pasoRelleno
          rw [if_neg (by omega), if_neg hmem]
        rw [List.foldl_cons, hstep]
        have hcnotcs : c ∉ cs := (List.nodup_cons.mp hnd).1
        have hfil : cs.filter (fun x => decide (x ∉ sel ++ [c])) =
            cs.filter (fun x => decide (x ∉ sel)) := by
          apply List.filter_congr
          intro x hx
          have hxc : x ≠ c := fun he => hcnotcs (he ▸ hx)
          simp [List.mem_append, hxc]
        have := ih hnd.of_cons (sel ++ [c])
        rw [hfil] at this
        refine le_trans (le_of_eq ?_) this
        rw [List.filter_cons]
        simp only [hmem, not_false_eq_true, decide_eq_true_eq, if_pos, List.length_cons,
          List.length_append, List.length_singleton]
        simp only [List.length_nil]
        omega
    · have hstep : pasoRelleno mp sel c = sel := pasoRelleno_lleno mp sel c hge
      rw [List.foldl_cons, hstep]
      rcases foldl_paso_extiende (pasoRelleno mp) (pasoRelleno_forma mp) cs sel with
        ⟨t, ht1, _⟩
      rw [ht1]
      simp only [List.length_append]
      exact le_trans (le_trans (min_le_left _ _) hge) (Nat.le_add_right _ _)

lemma seleccionar_espaciados_len (cands : List (ℝ × ℝ × ℝ)) (ms : ℝ) (mp : ℕ)
    (h : cands.Nodup) :
    (seleccionar_espaciados cands ms mp).length = min mp cands.length := by
  unfold seleccionar_espaciados
  rcases foldl_paso_extiende (pasoEspaciado ms mp) (pasoEspaciado_forma ms mp) cands []
    with ⟨t, hgt, hsubl⟩
  simp only [List.nil_append] at hgt
  set g := cands.foldl (pasoEspaciado ms mp) [] with hgdef
  have hgsub : g.Sublist cands := hgt ▸ hsubl
  have hgnd : g.Nodup := hgsub.nodup h
  have hglen : g.length ≤ mp :=
    foldl_paso_le_max mp _ (pasoEspaciado_forma ms mp) (pasoEspaciado_lleno ms mp)
      cands [] (by simp)
  have hgc : g.length ≤ cands.length := hgsub.length_le
  by_cases hcase : g.length < mp
  · rw [if_pos hcase]
    set b := cands.foldl (pasoRelleno mp) g with hbdef
    have hble : b.length ≤ mp :=
      foldl_paso_le_max mp _ (pasoRelleno_forma mp) (pasoRelleno_lleno mp) cands g hglen
    have hbnd : b.Nodup := relleno_nodup mp cands g hgnd
    rcases foldl_paso_extiende (pasoRelleno mp) (pasoRelleno_forma mp) cands g with
      ⟨t2, hbt, hsub2⟩
    have hbsub : ∀ x ∈ b, x ∈ cands := by
      intro x hx
      rw [hbdef, hbt] at hx
      rcases List.mem_append.mp hx with h2 | h2
      · exact hgsub.subset h2
      · exact hsub2.subset h2
    have hbc : b.length ≤ cands.length := by
      have h1 : b.length = b.toFinset.card := (List.toFinset_card_of_nodup hbnd).symm
      have h2 : b.toFinset ⊆ cands.toFinset := by
        intro x hx
        rw [List.mem_toFinset] at hx ⊢
        exact hbsub x hx
      calc b.length = b.toFinset.card := h1
        _ ≤ cands.toFinset.card := Finset.card_le_card h2
        _ ≤ cands.length := List.toFinset_card_le cands
    have hlower : min mp cands.length ≤ b.length := by
      have h1 := relleno_ge mp cands h g
      have h2 : g.length + (cands.filter (fun c => decide (c ∉ g))).length =
          cands.length := by
        have h3 := length_filter_particion (fun x => decide (x ∈ g)) cands
        have h4 : (cands.filter (fun x => !(decide (x ∈ g)))).length =
            (cands.filter (fun c => decide (c ∉ g))).length := by
          congr 1
          apply List.filter_congr
          intro x _
          simp
        have h5 := length_filter_mem cands g h hgnd (fun x hx => hgsub.subset hx)
        omega
      rw [h2] at h1
      exact h1
    exact le_antisymm (le_min hble hbc) hlower
  · rw [if_neg hcase]
    have hgeq : g.length = mp := le_antisymm hglen (Nat.le_of_not_lt hcase)
    rw [hgeq, min_eq_left (hgeq ▸ hgc)]

lemma dist_min_single (lat lon clat clon : ℝ) :
    _dist_min_a_camaras lat lon [(clat, clon)] = haversine_m lat lon clat clon := by
  simp [_dist_min_a_camaras, minimoLista]

lemma fitness_cubierto (punto : Punto) (camaras : List Punto) (r mi me : ℝ) (k : ℤ)
    (b : ℝ) (hne : camaras ≠ []) (hd : _dist_min_a_camaras punto.1 punto.2 camaras ≤ r) :
    fitness_punto_completo punto camaras r mi me k b =
      _clamp (0.05 * (_dist_min_a_camaras punto.1 punto.2 camaras / max r 1e-9))
        0.0 0.05 := by
  unfold fitness_punto_completo
  rw [if_neg hne]
  simp only []
  rw [if_pos hd]

lemma haversine_cero_lon (x : ℝ) (h1 : 0 ≤ x * Real.pi / 360)
    (h2 : x * Real.pi / 360 ≤ Real.pi / 2) :
    haversine_m 0 0 0 x = 6371000 * (2 * (x * Real.pi / 360)) := by
  unfold haversine_m radians
  simp only []
  norm_num
  have hrw : x * Real.pi / 180 / 2 = x * Real.pi / 360 := by ring
  have hsin : 0 ≤ Real.sin (x * Real.pi / 360) :=
    Real.sin_nonneg_of_nonneg_of_le_pi h1 (le_trans h2 (by linarith [Real.pi_pos]))
  rw [hrw, Real.sqrt_sq hsin,
    Real.arcsin_sin (by linarith [Real.pi_pos]) h2]

lemma max_radio_pos (r : ℝ) : 0 < max r 1e-9 :=
  lt_of_lt_of_le (by norm_num) (le_max_right r 1e-9)

lemma clamp_eval_cero : _clamp (0.05 * ((0:ℝ) / max 80 1e-9)) 0.0 0.05 = 0 := by
  unfold _clamp
  norm_num

/-- C5, counterexample: a candidate point lying exactly on a camera has
`dmin = 0 ≤ radio_cobertura_m`, and `fitness_punto_completo` (with its default
thresholds) returns exactly `0` there — the claimed "never exactly zero" fails. -/
theorem claim_C5_counterexample :
    _dist_min_a_camaras 0 0 [((0:ℝ), (0:ℝ))] ≤ 80 ∧
    fitness_punto_completo ((0:ℝ), (0:ℝ)) [((0:ℝ), (0:ℝ))] 80 350 900 4 0.10 = 0 := by
  have hd : _dist_min_a_camaras 0 0 [((0:ℝ), (0:ℝ))] = 0 := by
    rw [dist_min_single, haversine_same]
  have hle : _dist_min_a_camaras 0 0 [((0:ℝ), (0:ℝ))] ≤ 80 := by
    rw [hd]; norm_num
  refine ⟨hle, ?_⟩
  have h2 := fitness_cubierto ((0:ℝ), (0:ℝ)) [((0:ℝ), (0:ℝ))] 80 350 900 4 0.10
    (by simp) hle
  rw [h2]
  have h3 : _dist_min_a_camaras ((0:ℝ), (0:ℝ)).1 ((0:ℝ), (0:ℝ)).2 [((0:ℝ), (0:ℝ))]
      = 0 := hd
  rw [h3, clamp_eval_cero]

/-- C5 (amended): for a non-empty camera set, whenever the candidate's minimum
distance `dmin` to a camera satisfies `dmin ≤ radio_cobertura_m`,
`fitness_punto_completo` returns
`clamp(0.05 * dmin / max(radio, 1e-9), 0, 0.05)` — a score proportional to
`dmin / radio`, capped at `0.05` — and that score is positive whenever
`dmin > 0` (it is exactly zero when the point coincides with a camera,
`dmin = 0`, which is the one case the original claim's "never exactly zero"
overlooked). -/
theorem claim_C5 (punto : Punto) (camaras : List Punto) (r mi me : ℝ) (k : ℤ) (b : ℝ)
    (hne : camaras ≠ [])
    (hd : _dist_min_a_camaras punto.1 punto.2 camaras ≤ r) :
    fitness_punto_completo punto camaras r mi me k b =
      _clamp (0.05 * (_dist_min_a_camaras punto.1 punto.2 camaras / max r 1e-9))
        0.0 0.05 ∧
    fitness_punto_completo punto camaras r mi me k b ≤ 0.05 ∧
    (0 < _dist_min_a_camaras punto.1 punto.2 camaras →
      0 < fitness_punto_completo punto camaras r mi me k b) := by
  have heq := fitness_cubierto punto camaras r mi me k b hne hd
  refine ⟨heq, ?_, ?_⟩
  · rw [heq]; exact clamp_le_hi _ _ _ (by norm_num)
  · intro hdm
    rw [heq]
    have hpos : 0 < 0.05 * (_dist_min_a_camaras punto.1 punto.2 camaras / max r 1e-9) :=
      mul_pos (by norm_num) (div_pos hdm (max_radio_pos r))
    unfold _clamp
    exact lt_of_lt_of_le (lt_min (by norm_num) hpos) (le_max_right _ _)

/-- Witness for C5's amended theorem: a camera at `(0, 1/2000)` (about 55.6 m
east of the origin) and the candidate at the origin give `0 < dmin ≤ 80`,
and the fitness is strictly positive. -/
theorem claim_C5_witness :
    (([((0:ℝ), 1/2000)] : List Punto) ≠ []) ∧
    _dist_min_a_camaras 0 0 [((0:ℝ), 1/2000)] ≤ 80 ∧
    0 < _dist_min_a_camaras 0 0 [((0:ℝ), 1/2000)] ∧
    0 < fitness_punto_completo ((0:ℝ), (0:ℝ)) [((0:ℝ), 1/2000)] 80 350 900 4 0.10 := by
  have hdist : _dist_min_a_camaras 0 0 [((0:ℝ), 1/2000)] =
      6371000 * (2 * ((1/2000) * Real.pi / 360)) := by
    rw [dist_min_single]
    exact haversine_cero_lon (1/2000) (by positivity) (by nlinarith [Real.pi_pos])
  have hle : _dist_min_a_camaras 0 0 [((0:ℝ), 1/2000)] ≤ 80 := by
    rw [hdist]; nlinarith [Real.pi_le_four, Real.pi_pos]
  have hpos : 0 < _dist_min_a_camaras 0 0 [((0:ℝ), 1/2000)] := by
    rw [hdist]; positivity
  exact ⟨by simp, hle, hpos,
    (claim_C5 ((0:ℝ), (0:ℝ)) [((0:ℝ), 1/2000)] 80 350 900 4 0.10 (by simp) hle).2.2 hpos⟩

/-- C7, counterexample: with a duplicated candidate triple, the backfill's
`c not in seleccionados` membership test skips the copy, so the selector
returns 1 result although `min(cap, total) = 2`. -/
theorem claim_C7_counterexample :
    (seleccionar_espaciados [((0:ℝ), (0:ℝ), (1:ℝ)), (0, 0, 1)] 10 2).length = 1 ∧
    min 2 ([((0:ℝ), (0:ℝ), (1:ℝ)), (0, 0, 1)] : List (ℝ × ℝ × ℝ)).length = 2 := by
  constructor
  · norm_num [seleccionar_espaciados, pasoEspaciado, pasoRelleno, haversine_same]
  · simp

/-- C7 (amended): for every candidate list WITHOUT duplicate entries, every
minimum separation and every result cap, `seleccionar_espaciados` returns
exactly `min(cap, total candidates)` results (the greedy pass accepts a
separated subset and the backfill tops it up ignoring separation).  With
duplicated candidate triples the backfill can return fewer (see the
counterexample). -/
theorem claim_C7 (candidatos : List (ℝ × ℝ × ℝ)) (min_sep_m : ℝ) (max_puntos : ℕ)
    (h : candidatos.Nodup) :
    (seleccionar_espaciados candidatos min_sep_m max_puntos).length =
      min max_puntos candidatos.length :=
  seleccionar_espaciados_len candidatos min_sep_m max_puntos h

/-- Witness for C7's amended theorem at two distinct candidates and cap 5. -/
theorem claim_C7_witness :
    ([((0:ℝ), (0:ℝ), (1:ℝ)), (0, 1, 1)] : List (ℝ × ℝ × ℝ)).Nodup ∧
    (seleccionar_espaciados [((0:ℝ), (0:ℝ), (1:ℝ)), (0, 1, 1)] 10 5).length =
      min 5 ([((0:ℝ), (0:ℝ), (1:ℝ)), (0, 1, 1)] : List (ℝ × ℝ × ℝ)).length := by
  have hnd : ([((0:ℝ), (0:ℝ), (1:ℝ)), (0, 1, 1)] : List (ℝ × ℝ × ℝ)).Nodup := by
    norm_num [List.nodup_cons, Prod.ext_iff]
  exact ⟨hnd, claim_C7 _ 10 5 hnd⟩

lemma fitness_cobertura_mem (puntos_eval camaras_existentes camaras_nuevas : List Punto)
    (radio_m : ℝ) (ps : Bool) (pso : ℝ) (pc : Bool) (d1 d2 pw : ℝ) :
    0 ≤ fitness_cobertura puntos_eval camaras_existentes camaras_nuevas radio_m
        ps pso pc d1 d2 pw ∧
      fitness_cobertura puntos_eval camaras_existentes camaras_nuevas radio_m
        ps pso pc d1 d2 pw ≤ 100 := by
  unfold fitness_cobertura
  exact ⟨le_trans (by norm_num) (clamp_lo_le _ _ _),
    le_trans (clamp_le_hi _ _ _ (by norm_num)) (by norm_num)⟩

/-- C1: the blind-spot fitness `fitness_punto_completo` always returns a value
in `[0, 1]` (for every candidate point, camera set and threshold parameters),
and the coverage fitness `fitness_cobertura` always returns a value in
`[0, 100]` (for every evaluation grid, existing/candidate camera sets, radius
and penalty settings): both end in a clamp to those intervals, and the
already-covered branch of the former lands in `[0, 0.05] ⊆ [0, 1]`. -/
theorem claim_C1 :
    (∀ (punto : Punto) (camaras : List Punto) (r mi me : ℝ) (k : ℤ) (b : ℝ),
      0 ≤ fitness_punto_completo punto camaras r mi me k b ∧
        fitness_punto_completo punto camaras r mi me k b ≤ 1) ∧
    (∀ (puntos_eval camaras_existentes camaras_nuevas : List Punto)
      (radio_m : ℝ) (ps : Bool) (pso : ℝ) (pc : Bool) (d1 d2 pw : ℝ),
      0 ≤ fitness_cobertura puntos_eval camaras_existentes camaras_nuevas radio_m
          ps pso pc d1 d2 pw ∧
        fitness_cobertura puntos_eval camaras_existentes camaras_nuevas radio_m
          ps pso pc d1 d2 pw ≤ 100) :=
  ⟨fun punto camaras r mi me k b => fitness_punto_completo_mem punto camaras r mi me k b,
   fun pe ce cn rm ps pso pc d1 d2 pw => fitness_cobertura_mem pe ce cn rm ps pso pc d1 d2 pw⟩

/-- C10: `generar_grid_puntos` on an empty camera sequence returns `[]`
without any further computation, for every step, margin factor, point cap and
subsampling draw. -/
theorem claim_C10 (muestra : List Punto → ℕ → List Punto) (step_m margin_factor : ℝ)
    (max_points : ℕ) :
    generar_grid_puntos muestra [] step_m margin_factor max_points = [] := by
  unfold generar_grid_puntos
  rw [if_pos rfl]

/-- C4: an empty existing-camera input short-circuits both orchestrators:
the blind-spot search returns `[]`, and the coverage search returns an empty
new-camera list, fitness `0.0` and the empty metrics dict, for every oracle
and every configuration — neither runs a generation. -/
theorem claim_C4 :
    (∀ (O : OraculoPC) (tam gens np : ℕ) (ms r mi me : ℝ) (k : ℤ) (e kt : ℕ)
      (a bm : ℝ),
      algoritmo_genetico_puntos_ciegos O [] tam gens np ms r mi me k e kt a bm = []) ∧
    (∀ (O : OraculoGC) (n : ℕ) (r : ℝ) (pe : Option (List Punto)) (sg : ℝ) (gm : ℕ)
      (tam gens e kt : ℕ) (a bm : ℝ) (ps pc : Bool) (d1 d2 pw : ℝ)
      (sem : Option (List Punto)) (prob : ℝ),
      (algoritmo_genetico_mejorar_cobertura O [] n r pe sg gm tam gens e kt a bm
        ps pc d1 d2 pw sem prob).camaras_nuevas = [] ∧
      (algoritmo_genetico_mejorar_cobertura O [] n r pe sg gm tam gens e kt a bm
        ps pc d1 d2 pw sem prob).fitness = 0 ∧
      (algoritmo_genetico_mejorar_cobertura O [] n r pe sg gm tam gens e kt a bm
        ps pc d1 d2 pw sem prob).metricas = none) := by
  constructor
  · intro O tam gens np ms r mi me k e kt a bm
    unfold algoritmo_genetico_puntos_ciegos
    rw [if_pos rfl]
  · intro O n r pe sg gm tam gens e kt a bm ps pc d1 d2 pw sem prob
    unfold algoritmo_genetico_mejorar_cobertura
    rw [if_pos rfl]
    norm_num

lemma ordenDesc_nil : ordenDesc [] = [] := by
  simp [ordenDesc]

lemma elitesDe_nil {α : Type} (dflt : α) (e : ℕ) :
    elitesDe dflt ([] : List α) [] e = [] := by
  simp [elitesDe, ordenDesc_nil]

lemma sigGeneracionPC_nil (f : Punto → ℝ) (e kt : ℕ) (a mla hla mlo hlo : ℝ)
    (O : OraculoPC) (g : ℕ) :
    sigGeneracionPC f e 0 kt a mla hla mlo hlo O g [] = [] := by
  simp [sigGeneracionPC, elitesDe_nil]

lemma foldl_fixed {α β : Type} (f : β → α → β) (b : β) (h : ∀ a, f b a = b) :
    ∀ l : List α, l.foldl f b = b := by
  intro l
  induction l with
  | nil => rfl
  | cons a t ih => rw [List.foldl_cons, h a]; exact ih

lemma seleccionar_espaciados_nil (ms : ℝ) (mp : ℕ) :
    seleccionar_espaciados [] ms mp = [] := by
  unfold seleccionar_espaciados
  simp only [List.foldl_nil]
  split_ifs <;> rfl

lemma puntos_ciegos_tam_cero (O : OraculoPC) (camaras : List Punto)
    (gens np : ℕ) (ms r mi me : ℝ) (k : ℤ) (e kt : ℕ) (a bm : ℝ) :
    algoritmo_genetico_puntos_ciegos O camaras 0 gens np ms r mi me k e kt a bm = [] := by
  unfold algoritmo_genetico_puntos_ciegos
  by_cases h : camaras = []
  · rw [if_pos h]
  · rw [if_neg h]
    simp only [List.range_zero, List.map_nil]
    rw [foldl_fixed _ _ (fun g => sigGeneracionPC_nil _ e kt a _ _ _ _ O g)]
    simp only [List.zip_nil_left, List.map_nil]
    rw [show ordenCandidatos [] = [] by simp [ordenCandidatos]]
    exact seleccionar_espaciados_nil ms np

/-- C2, counterexample: the blind-spot entry point called with the invalid
configuration `tam_poblacion = 0` (and one existing camera, all other
parameters at the source defaults) is not rejected: no validation failure is
raised and the search silently returns the normal value `[]`. -/
theorem claim_C2_counterexample :
    algoritmo_genetico_puntos_ciegos oraculoPCCero [((19:ℝ), (-99:ℝ))] 0 90 10 180 80
      350 900 4 4 4 0.5 0.15 = [] :=
  puntos_ciegos_tam_cero oraculoPCCero [((19:ℝ), (-99:ℝ))] 90 10 180 80 350 900 4 4 4
    0.5 0.15

/-- C2 (amended): neither GA entry point validates its configuration.  A
non-positive population size (or generation count, grid spacing, radius or
distance threshold) flows into the search unchecked; in particular the
blind-spot search with `tam_poblacion = 0` silently returns the empty list for
every camera set, every remaining parameter value and every oracle, instead of
surfacing a validation failure naming the parameter. -/
theorem claim_C2 (O : OraculoPC) (camaras : List Punto) (gens np : ℕ)
    (ms r mi me : ℝ) (k : ℤ) (e kt : ℕ) (a bm : ℝ) :
    algoritmo_genetico_puntos_ciegos O camaras 0 gens np ms r mi me k e kt a bm = [] :=
  puntos_ciegos_tam_cero O camaras gens np ms r mi me k e kt a bm

lemma conteoNiveles_suma_aux (camaras : List Punto) (r : ℝ) :
    ∀ (pts : List Punto) (acc res : ℕ × ℕ × ℕ × ℕ),
      pts.foldl (fun acc p =>
          let k := contar_cobertura_en_punto p camaras r
          if k ≤ 0 then (acc.1 + 1, acc.2.1, acc.2.2.1, acc.2.2.2)
          else if k = 1 then (acc.1, acc.2.1 + 1, acc.2.2.1, acc.2.2.2)
          else if k = 2 then (acc.1, acc.2.1, acc.2.2.1 + 1, acc.2.2.2)
          else (acc.1, acc.2.1, acc.2.2.1, acc.2.2.2 + 1)) acc = res →
      res.1 + res.2.1 + res.2.2.1 + res.2.2.2 =
        acc.1 + acc.2.1 + acc.2.2.1 + acc.2.2.2 + pts.length := by
  intro pts
  induction pts with
  | nil =>
    intro acc res h
    rw [List.foldl_nil] at h
    subst h
    simp
  | cons p t ih =>
    intro acc res h
    rw [List.foldl_cons] at h
    have h2 := ih _ res h
    rw [h2]
    simp only [List.length_cons]
    split_ifs <;> simp <;> omega

lemma conteoNiveles_suma (camaras : List Punto) (r : ℝ) (pts : List Punto) :
    (conteoNiveles pts camaras r).1 + (conteoNiveles pts camaras r).2.1 +
      (conteoNiveles pts camaras r).2.2.1 + (conteoNiveles pts camaras r).2.2.2 =
      pts.length := by
  have := conteoNiveles_suma_aux camaras r pts (0, 0, 0, 0) (conteoNiveles pts camaras r)
    (by rfl)
  simpa using this

/-- C8: for a non-empty evaluation grid, the four coverage-level percentages
returned by `metricas_niveles_cobertura` sum to exactly 100 (exact real
arithmetic models "within floating tolerance"), and `cobertura_total` equals
`100 - sin_cobertura`; for an empty grid the result is all zeros except
`sin_cobertura = 100`. -/
theorem claim_C8 (puntos_eval camaras : List Punto) (radio_m : ℝ) :
    (puntos_eval ≠ [] →
      (metricas_niveles_cobertura puntos_eval camaras radio_m).sin_cobertura +
        (metricas_niveles_cobertura puntos_eval camaras radio_m).nivel_1 +
        (metricas_niveles_cobertura puntos_eval camaras radio_m).nivel_2 +
        (metricas_niveles_cobertura puntos_eval camaras radio_m).nivel_3_mas = 100 ∧
      (metricas_niveles_cobertura puntos_eval camaras radio_m).cobertura_total =
        100 - (metricas_niveles_cobertura puntos_eval camaras radio_m).sin_cobertura) ∧
    (puntos_eval = [] →
      metricas_niveles_cobertura puntos_eval camaras radio_m = ⟨0, 100, 0, 0, 0⟩) := by
  constructor
  · intro h
    unfold metricas_niveles_cobertura
    rw [if_neg h]
    simp only []
    have hn : ((puntos_eval.length : ℝ)) ≠ 0 := by
      have := List.length_pos.mpr h
      positivity
    have hsum := conteoNiveles_suma camaras radio_m puntos_eval
    constructor
    · have hcast : ((conteoNiveles puntos_eval camaras radio_m).1 : ℝ) +
          ((conteoNiveles puntos_eval camaras radio_m).2.1 : ℝ) +
          ((conteoNiveles puntos_eval camaras radio_m).2.2.1 : ℝ) +
          ((conteoNiveles puntos_eval camaras radio_m).2.2.2 : ℝ) =
          (puntos_eval.length : ℝ) := by
        exact_mod_cast hsum
      field_simp
      linarith
    · norm_num
  · intro h
    unfold metricas_niveles_cobertura
    rw [if_pos h]
    norm_num

/-- Witness for C8 at the one-point grid `[(0, 0)]`, no cameras and radius
100. -/
theorem claim_C8_witness :
    (([((0:ℝ), (0:ℝ))] : List Punto) ≠ []) ∧
    ((metricas_niveles_cobertura [((0:ℝ), (0:ℝ))] [] 100).sin_cobertura +
      (metricas_niveles_cobertura [((0:ℝ), (0:ℝ))] [] 100).nivel_1 +
      (metricas_niveles_cobertura [((0:ℝ), (0:ℝ))] [] 100).nivel_2 +
      (metricas_niveles_cobertura [((0:ℝ), (0:ℝ))] [] 100).nivel_3_mas = 100 ∧
    (metricas_niveles_cobertura [((0:ℝ), (0:ℝ))] [] 100).cobertura_total =
      100 - (metricas_niveles_cobertura [((0:ℝ), (0:ℝ))] [] 100).sin_cobertura) :=
  ⟨by simp, (claim_C8 [((0:ℝ), (0:ℝ))] [] 100).1 (by simp)⟩

/-- C9: the neighbor count of the interiority term is clamped to
`[1, len(camaras)]`: for a non-empty camera set the effective `k` lies in that
interval, `_dist_prom_k_vecinas` is invariant under replacing `k` by its
clamped value, and so is `fitness_punto_completo` — hence no value of the
neighbor-count parameter (zero, negative, or larger than the camera count) can
make the evaluation fail. -/
theorem claim_C9 (lat lon : ℝ) (camaras : List Punto) (k : ℤ) (h : camaras ≠ []) :
    (1 ≤ max 1 (min k (camaras.length : ℤ)) ∧
      max 1 (min k (camaras.length : ℤ)) ≤ (camaras.length : ℤ)) ∧
    _dist_prom_k_vecinas lat lon camaras k =
      _dist_prom_k_vecinas lat lon camaras (max 1 (min k (camaras.length : ℤ))) ∧
    (∀ (punto : Punto) (r mi me b : ℝ),
      fitness_punto_completo punto camaras r mi me k b =
        fitness_punto_completo punto camaras r mi me
          (max 1 (min k (camaras.length : ℤ))) b) := by
  have hlen : (1 : ℤ) ≤ (camaras.length : ℤ) := by
    exact_mod_cast List.length_pos.mpr h
  have hclamp : ∀ lat' lon' : ℝ, _dist_prom_k_vecinas lat' lon' camaras k =
      _dist_prom_k_vecinas lat' lon' camaras (max 1 (min k (camaras.length : ℤ))) := by
    intro lat' lon'
    have hk : max 1 (min (max 1 (min k (camaras.length : ℤ))) (camaras.length : ℤ)) =
        max 1 (min k (camaras.length : ℤ)) := by omega
    unfold _dist_prom_k_vecinas
    simp only [List.length_mergeSort, List.length_map]
    rw [hk]
  refine ⟨⟨le_max_left _ _, max_le hlen (min_le_right _ _)⟩, hclamp lat lon, ?_⟩
  intro punto r mi me b
  unfold fitness_punto_completo
  simp only [if_neg h]
  by_cases hc : _dist_min_a_camaras punto.1 punto.2 camaras ≤ r
  · simp only [if_pos hc]
  · simp only [if_neg hc]
    rw [hclamp punto.1 punto.2]

/-- Witness for C9 at one camera and the out-of-range neighbor count
`k = -5`. -/
theorem claim_C9_witness :
    (([((0:ℝ), (0:ℝ))] : List Punto) ≠ []) ∧
    (1 ≤ max 1 (min (-5) (([((0:ℝ), (0:ℝ))] : List Punto).length : ℤ)) ∧
      max 1 (min (-5) (([((0:ℝ), (0:ℝ))] : List Punto).length : ℤ)) ≤
        (([((0:ℝ), (0:ℝ))] : List Punto).length : ℤ)) ∧
    _dist_prom_k_vecinas 0 0 [((0:ℝ), (0:ℝ))] (-5) =
      _dist_prom_k_vecinas 0 0 [((0:ℝ), (0:ℝ))]
        (max 1 (min (-5) (([((0:ℝ), (0:ℝ))] : List Punto).length : ℤ))) := by
  have h := claim_C9 0 0 [((0:ℝ), (0:ℝ))] (-5) (by simp)
  exact ⟨by simp, h.1, h.2.1⟩

lemma eliteDoblePaso {α : Type} (dflt : α) (f : α → ℝ) (e : ℕ) (pob kids : List α)
    (h : pob ≠ []) :
    ∃ x ∈ elitesDe dflt (elitesDe dflt pob (pob.map f) e ++ kids)
      ((elitesDe dflt pob (pob.map f) e ++ kids).map f) e,
      ∀ y ∈ pob, f y ≤ f x := by
  obtain ⟨x0, hx0e, hx0p, hx0m⟩ := elitesDe_best dflt pob f e h
  have hpob' : elitesDe dflt pob (pob.map f) e ++ kids ≠ [] := by
    intro hcon
    exact elitesDe_ne_nil dflt pob (pob.map f) e (by simpa using h)
      (List.append_eq_nil.mp hcon).1
  obtain ⟨x, hxe, hxp, hxm⟩ := elitesDe_best dflt _ f e hpob'
  exact ⟨x, hxe, fun y hy => le_trans (hx0m y hy) (hxm x0 (List.mem_append_left _ hx0e))⟩

lemma aptitudGC_mem (cfg : ConfigGC) (E : EntornoGC) (ind : List Punto) :
    0 ≤ aptitudGC cfg E ind ∧ aptitudGC cfg E ind ≤ 100 := by
  unfold aptitudGC
  exact ⟨le_trans (by norm_num) (clamp_lo_le _ _ _),
    le_trans (clamp_le_hi _ _ _ (by norm_num)) (by norm_num)⟩

lemma mejorIndice_sobre_rango (fits : List ℝ) (n : ℕ) (hn : fits.length = n)
    (h : n ≠ 0) :
    fits.getD (mejorIndice fits (List.range n)) 0 ∈ fits ∧
    ∀ x ∈ fits, x ≤ fits.getD (mejorIndice fits (List.range n)) 0 := by
  have hrne : List.range n ≠ [] := by
    simpa [List.range_eq_nil] using h
  have hmem := mejorIndice_mem fits (List.range n) hrne
  have hlt : mejorIndice fits (List.range n) < fits.length := by
    rw [hn]; exact List.mem_range.mp hmem
  refine ⟨getD_mem 0 hlt, ?_⟩
  intro x hx
  rcases List.getElem_of_mem hx with ⟨j, hj, rfl⟩
  have h1 : fits.getD j 0 = fits[j] := by
    rw [List.getD_eq_getElem?_getD, List.getElem?_eq_getElem hj, Option.getD_some]
  rw [← h1]
  exact mejorIndice_ub fits (List.range n) j (List.mem_range.mpr (hn ▸ hj))

lemma pasoGC_pob (cfg : ConfigGC) (E : EntornoGC) (O : OraculoGC) (g : ℕ)
    (s : EstadoGC) :
    (pasoGC cfg E O g s).pob =
      elitesDe [] s.pob (s.pob.map (aptitudGC cfg E)) cfg.elitismo ++
        (List.range (cfg.tam_poblacion -
          (elitesDe [] s.pob (s.pob.map (aptitudGC cfg E)) cfg.elitismo).length)).map
          (hijoGC cfg E O g
            (_seleccion_torneo s.pob (s.pob.map (aptitudGC cfg E)) cfg.k_torneo
              cfg.tam_poblacion (O.samp g))) := rfl

lemma pasoGC_pob_ne (cfg : ConfigGC) (E : EntornoGC) (O : OraculoGC) (g : ℕ)
    (s : EstadoGC) (h : s.pob ≠ []) : (pasoGC cfg E O g s).pob ≠ [] := by
  rw [pasoGC_pob]
  intro hcon
  exact elitesDe_ne_nil [] s.pob (s.pob.map (aptitudGC cfg E)) cfg.elitismo
    (by simpa using h) (List.append_eq_nil.mp hcon).1

lemma estadoGC_pob_ne (cfg : ConfigGC) (E : EntornoGC) (O : OraculoGC) (s0 : EstadoGC)
    (h : s0.pob ≠ []) : ∀ g, (estadoGC cfg E O s0 g).pob ≠ [] := by
  intro g
  induction g with
  | zero => exact h
  | succ g ih => exact pasoGC_pob_ne cfg E O g _ ih

lemma pasoGC_best_fit (cfg : ConfigGC) (E : EntornoGC) (O : OraculoGC) (g : ℕ)
    (s : EstadoGC) :
    (pasoGC cfg E O g s).best_fit =
      max s.best_fit ((s.pob.map (aptitudGC cfg E)).getD
        (mejorIndice (s.pob.map (aptitudGC cfg E)) (List.range s.pob.length)) 0) := by
  unfold pasoGC
  simp only []
  by_cases hlt : s.best_fit <
      (s.pob.map (aptitudGC cfg E)).getD
        (mejorIndice (s.pob.map (aptitudGC cfg E)) (List.range s.pob.length)) 0
  · rw [if_pos hlt, max_eq_right hlt.le]
  · rw [if_neg hlt, max_eq_left (not_lt.mp hlt)]

lemma estadoGC_best_fit_paso (cfg : ConfigGC) (E : EntornoGC) (O : OraculoGC)
    (s0 : EstadoGC) (g : ℕ) :
    (estadoGC cfg E O s0 (g + 1)).best_fit =
      max (estadoGC cfg E O s0 g).best_fit
        (((estadoGC cfg E O s0 g).pob.map (aptitudGC cfg E)).getD
          (mejorIndice ((estadoGC cfg E O s0 g).pob.map (aptitudGC cfg E))
            (List.range (estadoGC cfg E O s0 g).pob.length)) 0) := by
  rw [show estadoGC cfg E O s0 (g + 1) = pasoGC cfg E O g (estadoGC cfg E O s0 g) from rfl]
  exact pasoGC_best_fit cfg E O g _

lemma estadoGC_best_fit_mono (cfg : ConfigGC) (E : EntornoGC) (O : OraculoGC)
    (s0 : EstadoGC) (g : ℕ) :
    (estadoGC cfg E O s0 g).best_fit ≤ (estadoGC cfg E O s0 (g + 1)).best_fit := by
  rw [estadoGC_best_fit_paso]
  exact le_max_left _ _

lemma estadoGC_best_fit_cerrado (cfg : ConfigGC) (E : EntornoGC) (O : OraculoGC)
    (s0 : EstadoGC) (h0 : s0.pob ≠ []) (G : ℕ) :
    (estadoGC cfg E O s0 G).best_fit =
      List.foldl max s0.best_fit ((List.range G).flatMap
        (fun g => (estadoGC cfg E O s0 g).pob.map (aptitudGC cfg E))) := by
  induction G with
  | zero => simp [estadoGC]
  | succ G ih =>
    rw [estadoGC_best_fit_paso, ih, List.range_succ, List.flatMap_append,
      List.foldl_append]
    simp only [List.flatMap_cons, List.flatMap_nil, List.append_nil]
    have hne := estadoGC_pob_ne cfg E O s0 h0 G
    have hfitsne : (estadoGC cfg E O s0 G).pob.map (aptitudGC cfg E) ≠ [] := by
      simpa using hne
    have hlen : ((estadoGC cfg E O s0 G).pob.map (aptitudGC cfg E)).length =
        (estadoGC cfg E O s0 G).pob.length := List.length_map _ _
    have hmej := mejorIndice_sobre_rango ((estadoGC cfg E O s0 G).pob.map (aptitudGC cfg E))
      (estadoGC cfg E O s0 G).pob.length hlen
      (by simpa [List.length_pos] using hne)
    exact (foldl_max_eq _ _ _ hmej.1 hmej.2).symm

/-- C6: elitism monotonicity.  (a) Blind-spot GA: for every fitness function,
population and oracle, one generation step preserves the best: the elite set
computed from the next population contains an individual at least as fit as
every member of the current population.  (b) Coverage GA: along the whole run
the tracked `best_fit` is non-decreasing, and after `G` generations it equals
the running maximum (starting from the initial `-1.0`) of every fitness value
evaluated in generations `0..G-1`; moreover the elite set of generation
`g + 1`'s population dominates every individual of generation `g`. -/
theorem claim_C6 :
    (∀ (f : Punto → ℝ) (e tam kt : ℕ) (a mla hla mlo hlo : ℝ) (O : OraculoPC)
      (g : ℕ) (pob : List Punto), pob ≠ [] →
      ∃ x ∈ elitesDe (0, 0) (sigGeneracionPC f e tam kt a mla hla mlo hlo O g pob)
        ((sigGeneracionPC f e tam kt a mla hla mlo hlo O g pob).map f) e,
        ∀ y ∈ pob, f y ≤ f x) ∧
    (∀ (cfg : ConfigGC) (E : EntornoGC) (O : OraculoGC) (s0 : EstadoGC),
      s0.pob ≠ [] →
      (∀ g, (estadoGC cfg E O s0 g).best_fit ≤ (estadoGC cfg E O s0 (g + 1)).best_fit) ∧
      (∀ G, (estadoGC cfg E O s0 G).best_fit =
        List.foldl max s0.best_fit ((List.range G).flatMap
          (fun g => (estadoGC cfg E O s0 g).pob.map (aptitudGC cfg E)))) ∧
      (∀ g, ∃ x ∈ elitesDe [] (estadoGC cfg E O s0 (g + 1)).pob
          ((estadoGC cfg E O s0 (g + 1)).pob.map (aptitudGC cfg E)) cfg.elitismo,
        ∀ y ∈ (estadoGC cfg E O s0 g).pob,
          aptitudGC cfg E y ≤ aptitudGC cfg E x)) := by
  constructor
  · intro f e tam kt a mla hla mlo hlo O g pob h
    exact eliteDoblePaso (0, 0) f e pob _ h
  · intro cfg E O s0 h0
    refine ⟨fun g => estadoGC_best_fit_mono cfg E O s0 g,
      fun G => estadoGC_best_fit_cerrado cfg E O s0 h0 G, ?_⟩
    intro g
    have hne := estadoGC_pob_ne cfg E O s0 h0 g
    have hstep : (estadoGC cfg E O s0 (g + 1)).pob =
        elitesDe [] (estadoGC cfg E O s0 g).pob
          ((estadoGC cfg E O s0 g).pob.map (aptitudGC cfg E)) cfg.elitismo ++
        (List.range (cfg.tam_poblacion -
          (elitesDe [] (estadoGC cfg E O s0 g).pob
            ((estadoGC cfg E O s0 g).pob.map (aptitudGC cfg E)) cfg.elitismo).length)).map
          (hijoGC cfg E O g
            (_seleccion_torneo (estadoGC cfg E O s0 g).pob
              ((estadoGC cfg E O s0 g).pob.map (aptitudGC cfg E)) cfg.k_torneo
              cfg.tam_poblacion (O.samp g))) := pasoGC_pob cfg E O g _
    rw [hstep]
    exact eliteDoblePaso [] (aptitudGC cfg E) cfg.elitismo _ _ hne

/-- Witness for C6: part (a) instantiated at the one-point population
`[(0, 0)]` with the blind-spot fitness at an empty camera set, and part (b)
instantiated at a concrete configuration, environment, all-zero oracle and a
one-individual initial state. -/
theorem claim_C6_witness :
    (([((0:ℝ), (0:ℝ))] : List Punto) ≠ []) ∧
    (∃ x ∈ elitesDe ((0:ℝ), (0:ℝ))
        (sigGeneracionPC (fun p => fitness_punto_completo p [] 80 350 900 4 0.10)
          1 1 1 0.5 0 1 0 1 oraculoPCCero 0 [((0:ℝ), (0:ℝ))])
        ((sigGeneracionPC (fun p => fitness_punto_completo p [] 80 350 900 4 0.10)
          1 1 1 0.5 0 1 0 1 oraculoPCCero 0 [((0:ℝ), (0:ℝ))]).map
          (fun p => fitness_punto_completo p [] 80 350 900 4 0.10)) 1,
      ∀ y ∈ [((0:ℝ), (0:ℝ))],
        fitness_punto_completo y [] 80 350 900 4 0.10 ≤
          fitness_punto_completo x [] 80 350 900 4 0.10) ∧
    (∀ g, (estadoGC ⟨2, 120, 1, 1, 1, 0.5, true, false, 180, 60, 10⟩
        ⟨[], [], 0, 1, 0, 1⟩ oraculoGCCero
        ⟨[[((0:ℝ), (0:ℝ)), ((0:ℝ), (1:ℝ))]], [], -1⟩ g).best_fit ≤
      (estadoGC ⟨2, 120, 1, 1, 1, 0.5, true, false, 180, 60, 10⟩
        ⟨[], [], 0, 1, 0, 1⟩ oraculoGCCero
        ⟨[[((0:ℝ), (0:ℝ)), ((0:ℝ), (1:ℝ))]], [], -1⟩ (g + 1)).best_fit) := by
  refine ⟨by simp,
    claim_C6.1 (fun p => fitness_punto_completo p [] 80 350 900 4 0.10)
      1 1 1 0.5 0 1 0 1 oraculoPCCero 0 [((0:ℝ), (0:ℝ))] (by simp), ?_⟩
  exact (claim_C6.2 ⟨2, 120, 1, 1, 1, 0.5, true, false, 180, 60, 10⟩
    ⟨[], [], 0, 1, 0, 1⟩ oraculoGCCero
    ⟨[[((0:ℝ), (0:ℝ)), ((0:ℝ), (1:ℝ))]], [], -1⟩ (by simp)).1

lemma cruzar_individuo_len (p1 p2 : List Punto) (a : ℝ) (u : ℕ → ℝ) :
    (_cruzar_individuo_blx p1 p2 a u).length = min p1.length p2.length := by
  simp [_cruzar_individuo_blx]

lemma mutar_individuo_len (ind : List Punto) (mla hla mlo hlo pm sl sn : ℝ)
    (r : ℕ → ℝ) (gz : ℕ → ℕ → ℝ) :
    (_mutar_individuo_gauss ind mla hla mlo hlo pm sl sn r gz).length = ind.length := by
  simp [_mutar_individuo_gauss]

lemma foldl_conserva_len (step : (List Punto × Bool × ℕ) → ℕ → (List Punto × Bool × ℕ))
    (hstep : ∀ s i, (step s i).1.length = s.1.length) :
    ∀ (l : List ℕ) (st : List Punto × Bool × ℕ),
      ((l.foldl step st).1.length = st.1.length) := by
  intro l
  induction l with
  | nil => intro st; rfl
  | cons i t ih =>
    intro st
    rw [List.foldl_cons, ih (step st i), hstep st i]

lemma repairPasoExistentes_len (ce : List Punto) (mla hla mlo hlo dmin : ℝ)
    (fresh : ℕ → ℝ) (st : List Punto × Bool × ℕ) :
    (repairPasoExistentes ce mla hla mlo hlo dmin fresh st).1.length = st.1.length := by
  unfold repairPasoExistentes
  split_ifs with h
  · apply foldl_conserva_len
    intro s i
    simp only []
    split_ifs <;> simp
  · rfl

lemma repairPasoPares_len (mla hla mlo hlo dmin : ℝ) (fresh : ℕ → ℝ)
    (st : List Punto × Bool × ℕ) :
    (repairPasoPares mla hla mlo hlo dmin fresh st).1.length = st.1.length := by
  unfold repairPasoPares
  apply foldl_conserva_len
  intro s i
  apply foldl_conserva_len
  intro s2 t
  simp only []
  split_ifs <;> simp

lemma repairBucle_len (ce : List Punto) (mla hla mlo hlo d1 d2 : ℝ) (fresh : ℕ → ℝ) :
    ∀ (fuel : ℕ) (oc : List Punto × ℕ),
      (repairBucle ce mla hla mlo hlo d1 d2 fresh fuel oc).1.length = oc.1.length := by
  intro fuel
  induction fuel with
  | zero => intro oc; rfl
  | succ fuel ih =>
    intro oc
    unfold repairBucle
    simp only []
    split_ifs with h
    · rw [ih]
      rw [repairPasoPares_len, repairPasoExistentes_len]
    · rw [repairPasoPares_len, repairPasoExistentes_len]

lemma repair_separacion_len (ind ce : List Punto) (mla hla mlo hlo d1 d2 : ℝ)
    (fresh : ℕ → ℝ) (mi : ℕ) :
    (_repair_separacion ind ce mla hla mlo hlo d1 d2 fresh mi).length = ind.length := by
  unfold _repair_separacion
  rw [List.length_map, repairBucle_len]

lemma crear_individuo_len (O : OraculoGC) (sem : List Punto) (n : ℕ) (prob : ℝ)
    (ce : List Punto) (mla hla mlo hlo : ℝ) (pc : Bool) (d1 d2 : ℝ) (i : ℕ) :
    (_crear_individuo O sem n prob ce mla hla mlo hlo pc d1 d2 i).length = n := by
  unfold _crear_individuo
  split_ifs with h1 h2 h3 <;>
    simp [repair_separacion_len, List.length_append]

lemma seleccion_torneo_gc_len (pob : List (List Punto)) (fits : List ℝ) (k tam : ℕ)
    (samp : ℕ → ℕ → ℕ) : (_seleccion_torneo pob fits k tam samp).length = tam := by
  simp [_seleccion_torneo]

lemma seleccion_torneo_gc_mem (pob : List (List Punto)) (fits : List ℝ) (k tam : ℕ)
    (samp : ℕ → ℕ → ℕ) (hk : 1 ≤ k) (hpob : pob ≠ []) :
    ∀ p ∈ _seleccion_torneo pob fits k tam samp, p ∈ pob := by
  intro p hp
  unfold _seleccion_torneo at hp
  rcases List.mem_map.mp hp with ⟨t, _, rfl⟩
  simp only []
  have hplen : 0 < pob.length := List.length_pos.mpr hpob
  have hcont_ne : (List.range (min k pob.length)).map
      (fun pos => samp t pos % pob.length) ≠ [] := by
    simp only [ne_eq, List.map_eq_nil_iff, List.range_eq_nil]
    omega
  have hbest := mejorIndice_mem fits _ hcont_ne
  rcases List.mem_map.mp hbest with ⟨pos, _, hposeq⟩
  have hlt : mejorIndice fits ((List.range (min k pob.length)).map
      (fun pos => samp t pos % pob.length)) < pob.length := by
    rw [← hposeq]
    exact Nat.mod_lt _ hplen
  exact getD_mem [] hlt

lemma hijoGC_len (cfg : ConfigGC) (E : EntornoGC) (O : OraculoGC) (g : ℕ)
    (padres : List (List Punto)) (j n : ℕ) (hne : padres ≠ [])
    (hp : ∀ p ∈ padres, p.length = n) :
    (hijoGC cfg E O g padres j).length = n := by
  unfold hijoGC
  simp only []
  have hplen : 0 < padres.length := List.length_pos.mpr hne
  have hp1 : padres.getD (O.eleccion1 g j % padres.length) [] ∈ padres :=
    getD_mem [] (Nat.mod_lt _ hplen)
  have hp2 : padres.getD (O.eleccion2 g j % padres.length) [] ∈ padres :=
    getD_mem [] (Nat.mod_lt _ hplen)
  have hlen1 := hp _ hp1
  have hlen2 := hp _ hp2
  split_ifs with hpc
  · rw [repair_separacion_len, List.length_map, mutar_individuo_len,
      cruzar_individuo_len, hlen1, hlen2, min_self]
  · rw [List.length_map, mutar_individuo_len, cruzar_individuo_len, hlen1, hlen2,
      min_self]

lemma pasoGC_todos_len (cfg : ConfigGC) (E : EntornoGC) (O : OraculoGC) (g : ℕ)
    (s : EstadoGC) (hpob : s.pob ≠ []) (hkt : 1 ≤ cfg.k_torneo)
    (htam : 1 ≤ cfg.tam_poblacion)
    (hall : ∀ ind ∈ s.pob, ind.length = cfg.n_camaras_nuevas) :
    ∀ ind ∈ (pasoGC cfg E O g s).pob, ind.length = cfg.n_camaras_nuevas := by
  intro ind hind
  rw [pasoGC_pob] at hind
  rcases List.mem_append.mp hind with h | h
  · exact hall _ (elitesDe_subset [] s.pob _ cfg.elitismo (List.length_map _ _) _ h)
  · rcases List.mem_map.mp h with ⟨j, _, rfl⟩
    have hpadres_ne : _seleccion_torneo s.pob (s.pob.map (aptitudGC cfg E)) cfg.k_torneo
        cfg.tam_poblacion (O.samp g) ≠ [] := by
      intro hcon
      have := seleccion_torneo_gc_len s.pob (s.pob.map (aptitudGC cfg E)) cfg.k_torneo
        cfg.tam_poblacion (O.samp g)
      rw [hcon] at this
      simp at this
      omega
    exact hijoGC_len cfg E O g _ j cfg.n_camaras_nuevas hpadres_ne
      (fun p hp => hall p (seleccion_torneo_gc_mem s.pob _ cfg.k_torneo
        cfg.tam_poblacion (O.samp g) hkt hpob p hp))

lemma estadoGC_todos_len (cfg : ConfigGC) (E : EntornoGC) (O : OraculoGC)
    (s0 : EstadoGC) (hpob : s0.pob ≠ [])
    (hall : ∀ ind ∈ s0.pob, ind.length = cfg.n_camaras_nuevas)
    (hkt : 1 ≤ cfg.k_torneo) (htam : 1 ≤ cfg.tam_poblacion) :
    ∀ g, ∀ ind ∈ (estadoGC cfg E O s0 g).pob, ind.length = cfg.n_camaras_nuevas := by
  intro g
  induction g with
  | zero => exact hall
  | succ g ih =>
    exact pasoGC_todos_len cfg E O g _ (estadoGC_pob_ne cfg E O s0 hpob g) hkt htam ih

lemma pasoGC_best_bien (cfg : ConfigGC) (E : EntornoGC) (O : OraculoGC) (g : ℕ)
    (s : EstadoGC) (hpob : s.pob ≠ [])
    (hall : ∀ ind ∈ s.pob, ind.length = cfg.n_camaras_nuevas)
    (hbi : s.best_fit = -1.0 ∨ (0 ≤ s.best_fit ∧ s.best_fit ≤ 100 ∧
      s.best_ind.length = cfg.n_camaras_nuevas)) :
    0 ≤ (pasoGC cfg E O g s).best_fit ∧ (pasoGC cfg E O g s).best_fit ≤ 100 ∧
      (pasoGC cfg E O g s).best_ind.length = cfg.n_camaras_nuevas := by
  have hlenpos : s.pob.length ≠ 0 := by
    simpa [List.length_eq_zero] using hpob
  have hfits := mejorIndice_sobre_rango (s.pob.map (aptitudGC cfg E)) s.pob.length
    (List.length_map _ _) hlenpos
  rcases List.mem_map.mp hfits.1 with ⟨y, hy, hym⟩
  have hm0 : 0 ≤ (s.pob.map (aptitudGC cfg E)).getD
      (mejorIndice (s.pob.map (aptitudGC cfg E)) (List.range s.pob.length)) 0 := by
    rw [← hym]; exact (aptitudGC_mem cfg E y).1
  have hm100 : (s.pob.map (aptitudGC cfg E)).getD
      (mejorIndice (s.pob.map (aptitudGC cfg E)) (List.range s.pob.length)) 0 ≤ 100 := by
    rw [← hym]; exact (aptitudGC_mem cfg E y).2
  have hilt : mejorIndice (s.pob.map (aptitudGC cfg E)) (List.range s.pob.length) <
      s.pob.length := by
    have hrne : List.range s.pob.length ≠ [] := by
      simpa [List.range_eq_nil] using hlenpos
    exact List.mem_range.mp (mejorIndice_mem _ _ hrne)
  unfold pasoGC
  simp only []
  by_cases hlt : s.best_fit < (s.pob.map (aptitudGC cfg E)).getD
      (mejorIndice (s.pob.map (aptitudGC cfg E)) (List.range s.pob.length)) 0
  · rw [if_pos hlt, if_pos hlt]
    exact ⟨hm0, hm100, hall _ (getD_mem [] hilt)⟩
  · rw [if_neg hlt, if_neg hlt]
    rcases hbi with hbi | hbi
    · exfalso
      apply hlt
      rw [hbi]
      linarith
    · exact hbi

lemma estadoGC_best_bien (cfg : ConfigGC) (E : EntornoGC) (O : OraculoGC)
    (pob0 : List (List Punto)) (hpob : pob0 ≠ [])
    (hall : ∀ ind ∈ pob0, ind.length = cfg.n_camaras_nuevas)
    (hkt : 1 ≤ cfg.k_torneo) (htam : 1 ≤ cfg.tam_poblacion) :
    ∀ gens, 1 ≤ gens →
      0 ≤ (estadoGC cfg E O ⟨pob0, [], -1.0⟩ gens).best_fit ∧
      (estadoGC cfg E O ⟨pob0, [], -1.0⟩ gens).best_fit ≤ 100 ∧
      (estadoGC cfg E O ⟨pob0, [], -1.0⟩ gens).best_ind.length = cfg.n_camaras_nuevas := by
  intro gens
  induction gens with
  | zero => intro h; cases h
  | succ g ih =>
    intro _
    have hne := estadoGC_pob_ne cfg E O ⟨pob0, [], -1.0⟩ hpob g
    have hlens := estadoGC_todos_len cfg E O ⟨pob0, [], -1.0⟩ hpob hall hkt htam g
    rcases Nat.eq_zero_or_pos g with hg | hg
    · subst hg
      exact pasoGC_best_bien cfg E O 0 _ hne hlens (Or.inl rfl)
    · exact pasoGC_best_bien cfg E O g _ hne hlens (Or.inr (ih hg))

/-- C3: for every non-empty existing-camera input, requested count
`n_camaras_nuevas` and oracle, provided the population size, generation count
and tournament size are at least 1 (the source defaults are 80, 80 and 4),
the coverage search returns a `camaras_nuevas` list of exactly
`n_camaras_nuevas` coordinate pairs and a fitness in `[0, 100]`; and
(the invariant behind it) every individual of every generation's population
keeps length `n_camaras_nuevas` through crossover, mutation and repair. -/
theorem claim_C3 (O : OraculoGC) (camaras : List Punto) (n : ℕ) (r : ℝ)
    (pe : Option (List Punto)) (sg : ℝ) (gm : ℕ) (tam gens e kt : ℕ) (a bm : ℝ)
    (ps pc : Bool) (d1 d2 pw : ℝ) (sem : Option (List Punto)) (prob : ℝ)
    (hcam : camaras ≠ []) (htam : 1 ≤ tam) (hgens : 1 ≤ gens) (hkt : 1 ≤ kt) :
    ((algoritmo_genetico_mejorar_cobertura O camaras n r pe sg gm tam gens e kt a bm
        ps pc d1 d2 pw sem prob).camaras_nuevas.length = n ∧
      0 ≤ (algoritmo_genetico_mejorar_cobertura O camaras n r pe sg gm tam gens e kt
          a bm ps pc d1 d2 pw sem prob).fitness ∧
      (algoritmo_genetico_mejorar_cobertura O camaras n r pe sg gm tam gens e kt a bm
          ps pc d1 d2 pw sem prob).fitness ≤ 100) ∧
    (∀ (cfg : ConfigGC) (E : EntornoGC) (O' : OraculoGC) (s0 : EstadoGC),
      s0.pob ≠ [] → (∀ ind ∈ s0.pob, ind.length = cfg.n_camaras_nuevas) →
      1 ≤ cfg.k_torneo → 1 ≤ cfg.tam_poblacion →
      ∀ g, ∀ ind ∈ (estadoGC cfg E O' s0 g).pob, ind.length = cfg.n_camaras_nuevas) := by
  constructor
  · unfold algoritmo_genetico_mejorar_cobertura
    rw [if_neg hcam]
    simp only []
    refine ⟨?_, ?_, ?_⟩
    · rw [List.length_map]
      refine (estadoGC_best_bien ⟨n, r, tam, e, kt, a, ps, pc, d1, d2, pw⟩ _ _ _ ?_ ?_ hkt htam gens hgens).2.2
      · simp only [ne_eq, List.map_eq_nil_iff, List.range_eq_nil]
        omega
      · intro ind hind
        rcases List.mem_map.mp hind with ⟨i, _, rfl⟩
        exact crear_individuo_len _ _ _ _ _ _ _ _ _ _ _ _ i
    · refine (estadoGC_best_bien ⟨n, r, tam, e, kt, a, ps, pc, d1, d2, pw⟩ _ _ _ ?_ ?_ hkt htam gens hgens).1
      · simp only [ne_eq, List.map_eq_nil_iff, List.range_eq_nil]
        omega
      · intro ind hind
        rcases List.mem_map.mp hind with ⟨i, _, rfl⟩
        exact crear_individuo_len _ _ _ _ _ _ _ _ _ _ _ _ i
    · refine (estadoGC_best_bien ⟨n, r, tam, e, kt, a, ps, pc, d1, d2, pw⟩ _ _ _ ?_ ?_ hkt htam gens hgens).2.1
      · simp only [ne_eq, List.map_eq_nil_iff, List.range_eq_nil]
        omega
      · intro ind hind
        rcases List.mem_map.mp hind with ⟨i, _, rfl⟩
        exact crear_individuo_len _ _ _ _ _ _ _ _ _ _ _ _ i
  · intro cfg E O' s0 h1 h2 h3 h4 g
    exact estadoGC_todos_len cfg E O' s0 h1 h2 h3 h4 g

/-- Witness for C3 at one existing camera, requested count 2, a provided
one-point evaluation grid, population 1, one generation, tournament size 1
and the all-zero oracle. -/
theorem claim_C3_witness :
    (([((0:ℝ), (0:ℝ))] : List Punto) ≠ []) ∧
    ((algoritmo_genetico_mejorar_cobertura oraculoGCCero [((0:ℝ), (0:ℝ))] 2 120
        (some [((0:ℝ), (0:ℝ))]) 150 6000 1 1 1 1 0.5 0.12 true false 180 60 10
        none 0.6).camaras_nuevas.length = 2 ∧
      0 ≤ (algoritmo_genetico_mejorar_cobertura oraculoGCCero [((0:ℝ), (0:ℝ))] 2 120
          (some [((0:ℝ), (0:ℝ))]) 150 6000 1 1 1 1 0.5 0.12 true false 180 60 10
          none 0.6).fitness ∧
      (algoritmo_genetico_mejorar_cobertura oraculoGCCero [((0:ℝ), (0:ℝ))] 2 120
          (some [((0:ℝ), (0:ℝ))]) 150 6000 1 1 1 1 0.5 0.12 true false 180 60 10
          none 0.6).fitness ≤ 100) :=
  ⟨by simp,
    (claim_C3 oraculoGCCero [((0:ℝ), (0:ℝ))] 2 120 (some [((0:ℝ), (0:ℝ))]) 150 6000
      1 1 1 1 0.5 0.12 true false 180 60 10 none 0.6 (by simp) (le_refl 1) (le_refl 1)
      (le_refl 1)).1⟩
